import Mathlib

/-!
# The `std` logger of patron (`log/std/logger.go`, `log/std/factory.go`)

A shallow embedding of the logger and a verification development over it.

* Go maps are reference values: the heap of maps is part of `World`, a map
  value is a `MapRef` (`none` is the nil map), and a map's content is an
  association list with pairwise distinct keys, listed in one iteration order.
* The byte sink (`io.Writer`) is a `Writer` in the `World`; it records every
  buffer handed to `Write` and the bytes it accepted.
* The standard library pieces the code calls (`fmt.Sprint`, the `%v` verb,
  `sort.Strings`, `log.New`, `(*log.Logger).Output`) are modelled after their
  Go definitions; `fmt.Sprintf` is a parameter of the `...f` methods.
* The wall clock and the call stack are an `Env` parameter.
-/

namespace PatronStd

/-! ## Values and their default printable form -/

/-- A Go `interface{}` value as far as printing can tell: a value of string
kind, an integer, a boolean, the nil interface, or any other value of a
non-string kind given by the text `%v` prints for it. -/
inductive Value where
  | str (s : String)
  | int (n : Int)
  | bool (b : Bool)
  | nil
  | other (text : String)
deriving DecidableEq, Repr

/-- The text of `fmt.Sprintf("%v", v)`. -/
def Value.format : Value → String
  | .str s => s
  | .int n => toString n
  | .bool b => if b then "true" else "false"
  | .nil => "<nil>"
  | .other t => t

/-- The test `arg != nil && reflect.TypeOf(arg).Kind() == reflect.String`
of `fmt`'s `doPrint`. -/
def Value.isString : Value → Bool
  | .str _ => true
  | _ => false

/-- The loop of `fmt`'s `doPrint`: a space goes between two operands when
neither is a string; `prevString` is the flag the loop carries, `first` is
`argNum == 0`. -/
def doPrint (first prevString : Bool) : List Value → String
  | [] => ""
  | arg :: rest =>
    (if !first && !arg.isString && !prevString then " " else "")
      ++ arg.format ++ doPrint false arg.isString rest

/-- The text of `fmt.Sprint(args...)`. -/
def Sprint (args : List Value) : String := doPrint true false args

/-! ## Severities -/

/-- Modelled from the spec: the severity type `Level` of package `log` of this
repository (not under src/), a six-value enumeration
{Debug, Info, Warn, Error, Fatal, Panic}. -/
inductive Level where
  | DebugLevel
  | InfoLevel
  | WarnLevel
  | ErrorLevel
  | FatalLevel
  | PanicLevel
deriving DecidableEq, Repr

/-- The table `levelMap` read at one key. -/
def levelMap : Level → String
  | .DebugLevel => "DBG"
  | .InfoLevel => "INF"
  | .WarnLevel => "WRN"
  | .ErrorLevel => "ERR"
  | .FatalLevel => "FTL"
  | .PanicLevel => "PNC"

/-! ## Field mappings -/

/-- Content of a Go `map[string]interface{}`: its entries in one iteration
order, keys pairwise distinct. -/
structure Fields where
  entries : List (String × Value)
  nodup : (entries.map Prod.fst).Nodup

/-- The map with no entry. -/
def Fields.empty : Fields := ⟨[], List.nodup_nil⟩

/-- The keys in iteration order: what `for key, _ := range fields` visits. -/
def Fields.keys (m : Fields) : List String := m.entries.map Prod.fst

/-- Value of `len(fields)`. -/
def Fields.len (m : Fields) : Nat := m.entries.length

/-- First entry of an association list under a key. -/
def lookupEntry : List (String × Value) → String → Option Value
  | [], _ => none
  | (k', v') :: rest, k => if k' = k then some v' else lookupEntry rest k

/-- The comma-ok read `v, ok := fields[key]`. -/
def Fields.get (m : Fields) (k : String) : Option Value := lookupEntry m.entries k

/-- The plain read `fields[key]`: the zero value (nil interface) when the key
is absent. -/
def Fields.index (m : Fields) (k : String) : Value := (m.get k).getD Value.nil

/-- The entries after `fields[key] = value`: an existing key keeps its place
and gets the new value, a new key is added. -/
def assignEntry : List (String × Value) → String → Value → List (String × Value)
  | [], k, v => [(k, v)]
  | (k', v') :: rest, k, v =>
    if k' = k then (k, v) :: rest else (k', v') :: assignEntry rest k v

theorem mem_keys_assignEntry (es : List (String × Value)) (k : String) (v : Value)
    (x : String) :
    x ∈ (assignEntry es k v).map Prod.fst ↔ x = k ∨ x ∈ es.map Prod.fst := by
  induction es with
  | nil => simp [assignEntry]
  | cons e rest ih =>
    obtain ⟨k', v'⟩ := e
    by_cases h : k' = k
    · subst h
      simp [assignEntry]
    · simp only [assignEntry, if_neg h, List.map_cons, List.mem_cons, ih]
      tauto

theorem nodup_keys_assignEntry (es : List (String × Value)) (k : String) (v : Value)
    (h : (es.map Prod.fst).Nodup) : ((assignEntry es k v).map Prod.fst).Nodup := by
  induction es with
  | nil => simp [assignEntry]
  | cons e rest ih =>
    obtain ⟨k', v'⟩ := e
    simp only [List.map_cons, List.nodup_cons] at h
    by_cases hk : k' = k
    · subst hk
      simpa [assignEntry] using h
    · simp only [assignEntry, if_neg hk, List.map_cons, List.nodup_cons,
        mem_keys_assignEntry]
      exact ⟨fun hc => hc.elim hk h.1, ih h.2⟩

/-- The map after `fields[key] = value`. -/
def Fields.set (m : Fields) (k : String) (v : Value) : Fields :=
  ⟨assignEntry m.entries k v, nodup_keys_assignEntry m.entries k v m.nodup⟩

/-- The map after assigning the listed pairs in turn. -/
def assignAll (es : List (String × Value)) (m : Fields) : Fields :=
  es.foldl (fun m e => m.set e.1 e.2) m

/-- A map built by assigning the listed pairs in turn to an empty map (a map
literal). -/
def Fields.ofList (l : List (String × Value)) : Fields := assignAll l Fields.empty

/-! ## Ordering of keys and the rendered field line -/

/-- Lexicographic comparison of two character sequences by code point (for
UTF-8 text the same order as Go's bytewise string comparison). -/
def lessChars : List Char → List Char → Bool
  | _, [] => false
  | [], _ :: _ => true
  | a :: as, b :: bs =>
    if a < b then true else if b < a then false else lessChars as bs

/-- The comparison `a < b` of two Go strings. -/
def less (a b : String) : Bool := lessChars a.toList b.toList

/-- The relation `sort.Strings` sorts by: `a` may stand before `b`. -/
def keyLE (a b : String) : Prop := less b a = false

instance : DecidableRel keyLE := fun a b => inferInstanceAs (Decidable (less b a = false))

/-- The effect of `sort.Strings(keys)`: the keys in increasing order. -/
def sortStrings (keys : List String) : List String := List.insertionSort keyLE keys

/-- The piece one key contributes: key, `=`, the `%v` form of `fields[key]`
and a space. -/
def fieldPair (m : Fields) (key : String) : String :=
  key ++ "=" ++ (m.index key).format ++ " "

/-- The Go function `createFieldsLine`. -/
def createFieldsLine (fields : Fields) : String :=
  if fields.len = 0 then ""
  else String.join ((sortStrings fields.keys).map (fieldPair fields))

/-! ## The world: map heap and sinks -/

/-- A value of type `map[string]interface{}`: `none` is the nil map, `some i`
the map at address `i`. -/
abbrev MapRef := Option Nat

/-- State of an `io.Writer`: whether its `Write` returns an error, every
buffer handed to `Write` so far (oldest first), and the bytes it accepted. -/
structure Writer where
  failing : Bool
  calls : List String
  content : String

/-- The mutable state a program using the logger can observe: the maps and
the sinks, by address. -/
structure World where
  maps : Nat → Fields
  sinks : Nat → Writer

/-- Reading a map value: the nil map reads as a map with no entry. -/
def World.load (w : World) (r : MapRef) : Fields :=
  match r with
  | none => Fields.empty
  | some i => w.maps i

/-- The world with the map at address `i` replaced. -/
def World.setMap (w : World) (i : Nat) (m : Fields) : World :=
  { w with maps := Function.update w.maps i m }

/-- The statement `m[key] = value`; `none` is the run-time panic
"assignment to entry in nil map". -/
def mapassign (w : World) (r : MapRef) (key : String) (value : Value) : Option World :=
  match r with
  | none => none
  | some i => some (w.setMap i ((w.maps i).set key value))

/-- One call `out.Write(p)`: the buffer is recorded, and accepted unless the
writer fails; the boolean is `err != nil`. -/
def World.write (w : World) (out : Nat) (p : String) : World × Bool :=
  let s := w.sinks out
  let s' : Writer :=
    { failing := s.failing,
      calls := s.calls ++ [p],
      content := if s.failing then s.content else s.content ++ p }
  ({ w with sinks := Function.update w.sinks out s' }, s.failing)

/-- How a call ends: it returns a value, panics with a payload, or ends the
process with an exit status. -/
inductive Outcome (α : Type) where
  | returned (a : α)
  | panicked (payload : Value)
  | exited (code : Nat)

/-- Payload of the run-time panic of a write to a nil map. -/
def nilMapPanic : Value := Value.other "assignment to entry in nil map"

/-! ## The standard library line-writer `log.Logger` -/

def Ldate : Nat := 1
def Ltime : Nat := 2
def Lmicroseconds : Nat := 4
def Llongfile : Nat := 8
def Lshortfile : Nat := 16
def LUTC : Nat := 32
def Lmsgprefix : Nat := 64
def LstdFlags : Nat := Ldate ||| Ltime

/-- A `*log.Logger`: its destination, its fixed text `pre` (the second
argument of `log.New`) and its flags. -/
structure LineWriter where
  out : Nat
  pre : String
  flag : Nat

/-- What the clock and the call stack contribute to a line: `stamp` is the
date and time text with its trailing space, `caller d` the `file:line: ` text
of the frame `d` levels up. -/
structure Env where
  stamp : String
  caller : Nat → String

/-- The header `formatHeader` builds: the fixed text first unless
`Lmsgprefix` is set, the time stamp, the call site, and the fixed text last
when `Lmsgprefix` is set. -/
def formatHeader (lw : LineWriter) (env : Env) (calldepth : Nat) : String :=
  (if lw.flag &&& Lmsgprefix = 0 then lw.pre else "")
    ++ (if lw.flag &&& (Ldate ||| Ltime ||| Lmicroseconds) ≠ 0 then env.stamp else "")
    ++ (if lw.flag &&& (Lshortfile ||| Llongfile) ≠ 0 then env.caller calldepth else "")
    ++ (if lw.flag &&& Lmsgprefix ≠ 0 then lw.pre else "")

/-- The line end `Output` appends after the text `s`: a newline, unless `s`
is non-empty and its last byte is already a newline. -/
def lineEnd (s : String) : String :=
  match s.toList.getLast? with
  | some '\n' => ""
  | _ => "\n"

/-- The buffer `Output` builds: header, the text `s`, and the line end. -/
def lineText (lw : LineWriter) (env : Env) (calldepth : Nat) (s : String) : String :=
  formatHeader lw env calldepth ++ s ++ lineEnd s

/-- The method `(*log.Logger).Output`: one `Write` of the buffer; the boolean
is the error it returns. -/
def LineWriter.Output (lw : LineWriter) (env : Env) (w : World) (calldepth : Nat)
    (s : String) : World × Bool :=
  w.write lw.out (lineText lw env calldepth s)

/-! ## The logger -/

/-- The Go struct `Logger`. -/
structure Logger where
  level : Level
  fields : MapRef
  fieldsLine : String
  out : Nat
  debug : LineWriter
  info : LineWriter
  warn : LineWriter
  error : LineWriter
  panic : LineWriter
  fatal : LineWriter

/-- The Go function `createLogger`. -/
def createLogger (out : Nat) (lvl : Level) (fieldLine : String) : LineWriter :=
  { out := out,
    pre := levelMap lvl ++ " " ++ fieldLine,
    flag := LstdFlags ||| Lmicroseconds ||| LUTC ||| Lmsgprefix ||| Lshortfile }

/-- The Go function `NewLogger`; the world is read for the content of the
map `fields`. -/
def NewLogger (w : World) (out : Nat) (lvl : Level) (fields : MapRef) : Logger :=
  let fieldsLine := createFieldsLine (w.load fields)
  { out := out,
    debug := createLogger out Level.DebugLevel fieldsLine,
    info := createLogger out Level.InfoLevel fieldsLine,
    warn := createLogger out Level.WarnLevel fieldsLine,
    error := createLogger out Level.ErrorLevel fieldsLine,
    panic := createLogger out Level.PanicLevel fieldsLine,
    fatal := createLogger out Level.FatalLevel fieldsLine,
    level := lvl,
    fields := fields,
    fieldsLine := fieldsLine }

/-- The loop `for key, value := range src { fields[key] = value }` over the
entries of the source map in iteration order. -/
def rangeAssign (w : World) (fields : MapRef) : List (String × Value) → Option World
  | [] => some w
  | (key, value) :: rest =>
    match mapassign w fields key value with
    | none => none
    | some w' => rangeAssign w' fields rest

/-- The Go method `(*Logger).Sub`. -/
def Logger.Sub (l : Logger) (w : World) (fields : MapRef) : World × Outcome Logger :=
  match rangeAssign w fields (w.load l.fields).entries with
  | none => (w, Outcome.panicked nilMapPanic)
  | some w' => (w', Outcome.returned (NewLogger w' l.out l.level fields))

/-- The Go function `output`. -/
def output (logger : LineWriter) (env : Env) (w : World) (args : List Value) :
    World × String :=
  let msg := Sprint args
  ((logger.Output env w 3 msg).1, msg)

/-- The Go function `outputf`; `sprintf` stands for `fmt.Sprintf`. -/
def outputf (sprintf : String → List Value → String) (logger : LineWriter) (env : Env)
    (w : World) (msg : String) (args : List Value) : World × String :=
  let fmtMsg := sprintf msg args
  ((logger.Output env w 3 fmtMsg).1, fmtMsg)

/-- The Go method `(*Logger).Fatal`. -/
def Logger.Fatal (l : Logger) (env : Env) (w : World) (args : List Value) :
    World × Outcome Unit :=
  ((output l.fatal env w args).1, Outcome.exited 1)

/-- The Go method `(*Logger).Fatalf`. -/
def Logger.Fatalf (sprintf : String → List Value → String) (l : Logger) (env : Env)
    (w : World) (msg : String) (args : List Value) : World × Outcome Unit :=
  ((outputf sprintf l.fatal env w msg args).1, Outcome.exited 1)

/-- The Go method `(*Logger).Panic`. -/
def Logger.Panic (l : Logger) (env : Env) (w : World) (args : List Value) :
    World × Outcome Unit :=
  let r := output l.panic env w args
  (r.1, Outcome.panicked (Value.str r.2))

/-- The Go method `(*Logger).Panicf`. -/
def Logger.Panicf (sprintf : String → List Value → String) (l : Logger) (env : Env)
    (w : World) (msg : String) (args : List Value) : World × Outcome Unit :=
  let r := outputf sprintf l.panic env w msg args
  (r.1, Outcome.panicked (Value.str r.2))

/-- The Go method `(*Logger).Error`. -/
def Logger.Error (l : Logger) (env : Env) (w : World) (args : List Value) :
    World × Outcome Unit :=
  ((output l.error env w args).1, Outcome.returned ())

/-- The Go method `(*Logger).Errorf`. -/
def Logger.Errorf (sprintf : String → List Value → String) (l : Logger) (env : Env)
    (w : World) (msg : String) (args : List Value) : World × Outcome Unit :=
  ((outputf sprintf l.error env w msg args).1, Outcome.returned ())

/-- The Go method `(*Logger).Warn`. -/
def Logger.Warn (l : Logger) (env : Env) (w : World) (args : List Value) :
    World × Outcome Unit :=
  ((output l.warn env w args).1, Outcome.returned ())

/-- The Go method `(*Logger).Warnf`. -/
def Logger.Warnf (sprintf : String → List Value → String) (l : Logger) (env : Env)
    (w : World) (msg : String) (args : List Value) : World × Outcome Unit :=
  ((outputf sprintf l.warn env w msg args).1, Outcome.returned ())

/-- The Go method `(*Logger).Info`. -/
def Logger.Info (l : Logger) (env : Env) (w : World) (args : List Value) :
    World × Outcome Unit :=
  ((output l.info env w args).1, Outcome.returned ())

/-- The Go method `(*Logger).Infof`. -/
def Logger.Infof (sprintf : String → List Value → String) (l : Logger) (env : Env)
    (w : World) (msg : String) (args : List Value) : World × Outcome Unit :=
  ((outputf sprintf l.info env w msg args).1, Outcome.returned ())

/-- The Go method `(*Logger).Debug`. -/
def Logger.Debug (l : Logger) (env : Env) (w : World) (args : List Value) :
    World × Outcome Unit :=
  ((output l.debug env w args).1, Outcome.returned ())

/-- The Go method `(*Logger).Debugf`. -/
def Logger.Debugf (sprintf : String → List Value → String) (l : Logger) (env : Env)
    (w : World) (msg : String) (args : List Value) : World × Outcome Unit :=
  ((outputf sprintf l.debug env w msg args).1, Outcome.returned ())

/-- The Go method `(*Logger).Level`. -/
def Logger.Level (l : Logger) : Level := l.level

/-- Address of the sink `os.Stderr`. -/
def Stderr : Nat := 2

/-- The Go function `Create` of `factory.go`: the constructor closure for a
severity. -/
def Create (lvl : Level) : World → MapRef → Logger :=
  fun w f => NewLogger w Stderr lvl f

/-! ## Vocabulary of the statements -/

/-- The step from `w` to `w'` is exactly one call of `Write` on the sink
`out`, with buffer `t`: the call is recorded, the bytes are accepted unless
the sink fails, and no other sink and no map changes. -/
def Wrote (w w' : World) (out : Nat) (t : String) : Prop :=
  (w'.sinks out).calls = (w.sinks out).calls ++ [t] ∧
  (w'.sinks out).content
    = (if (w.sinks out).failing then (w.sinks out).content else (w.sinks out).content ++ t) ∧
  (w'.sinks out).failing = (w.sinks out).failing ∧
  (∀ o, o ≠ out → w'.sinks o = w.sinks o) ∧
  w'.maps = w.maps

/-- The step from `w` to `w'` is exactly one call of `Write` on the sink
`out`, with a buffer that contains the text `s`. -/
def WroteContaining (w w' : World) (out : Nat) (s : String) : Prop :=
  ∃ a b, Wrote w w' out (a ++ s ++ b)

/-- Number of line terminators in a text, which is its number of lines when
it ends in one. -/
def lineCount (t : String) : Nat := t.toList.count '\n'

/-- A text that is exactly one line: a body without line terminator followed
by one newline. -/
def IsLine (t : String) : Prop := ∃ body, lineCount body = 0 ∧ t = body ++ "\n"

/-- The step from `w` to `w'` is exactly one call of `Write` on the sink
`out` whose buffer is `head`, the message `msg` and the line end; that buffer
is exactly one line when `head` and `msg` hold no newline. -/
def OneRecord (w w' : World) (out : Nat) (head msg : String) : Prop :=
  Wrote w w' out (head ++ msg ++ lineEnd msg) ∧
  (lineCount (head ++ msg) = 0 → IsLine (head ++ msg ++ lineEnd msg))

/-- The logger a call returned, if it returned. -/
def Outcome.value? {α : Type} : Outcome α → Option α
  | Outcome.returned a => some a
  | Outcome.panicked _ => none
  | Outcome.exited _ => none

/-- A call, as a function of the world it starts in, neither reads nor writes
a map: replacing the content of a map beforehand or afterwards is the same. -/
def MapBlind (call : World → World × Outcome Unit) : Prop :=
  ∀ (w : World) (i : Nat) (m : Fields),
    call (w.setMap i m) = ((call w).1.setMap i m, (call w).2)

/-- What goes between two adjacent operands of `Sprint`: one space when
neither is a string, nothing otherwise. -/
def sepBetween (p a : Value) : String := if p.isString || a.isString then "" else " "

/-- The default printable forms of the arguments put one after the other,
with `sepBetween` between each argument and the one before it. -/
def spacedForms : List Value → String
  | [] => ""
  | a :: rest =>
    a.format ++ String.join
      (List.zipWith (fun p x => sepBetween p x ++ x.format) (a :: rest) rest)

/-- The mapping `m` is the union of `a` and `b` with the value of `a` under
every key both hold. -/
def IsUnion (m a b : Fields) : Prop :=
  (∀ k v, a.get k = some v → m.get k = some v) ∧
  (∀ k, a.get k = none → m.get k = b.get k)

/-- The logger `l` has just been returned, in the world `w`, by `NewLogger` or
by a call of `Sub` on a logger obtained the same way (in whatever world that
call was made). -/
inductive Built : World → Logger → Prop where
  | byNewLogger (w : World) (out : Nat) (lvl : Level) (f : MapRef) :
      Built w (NewLogger w out lvl f)
  | bySub (w₀ w w' : World) (l l' : Logger) (g : MapRef) :
      Built w₀ l → l.Sub w g = (w', Outcome.returned l') → Built w' l'

/-- The step from `w` to `w'` is exactly one call of `Write` on the sink
`out` of which nothing is kept: the call is recorded once, the content of the
sink, every other sink and every map are as before. -/
def Discarded (w w' : World) (out : Nat) : Prop :=
  (∃ t, (w'.sinks out).calls = (w.sinks out).calls ++ [t]) ∧
  (w'.sinks out).content = (w.sinks out).content ∧
  (∀ o, o ≠ out → w'.sinks o = w.sinks o) ∧
  w'.maps = w.maps

/-- The world of the tests: the map `{"name": "john doe", "age": 18}` at
address 0, every other map empty, every sink an empty buffer. -/
def testWorld : World :=
  { maps := fun i =>
      if i = 0 then Fields.ofList [("name", Value.str "john doe"), ("age", Value.int 18)]
      else Fields.empty,
    sinks := fun _ => { failing := false, calls := [], content := "" } }

/-- The world of the tests with every sink failing: each `Write` returns an
error. -/
def brokenSinkWorld : World :=
  { maps := testWorld.maps,
    sinks := fun _ => { failing := true, calls := [], content := "" } }

/-- A world for forking examples: the map of the tests at address 0; at 1 a
map `f` with the shared key `age` and the new key `zone`; at 2 a map `g` with
the key `zone` of `f` and the new key `id`; at 3 the union of `f` and `g` with
the value of `f` on `zone`; at 4 the union of the map at 0 and `f` with the
value of the map at 0 on `age`; every sink an empty buffer. -/
def forkWorld : World :=
  { maps := fun i =>
      if i = 0 then Fields.ofList [("name", Value.str "john doe"), ("age", Value.int 18)]
      else if i = 1 then Fields.ofList [("age", Value.int 99), ("zone", Value.str "eu")]
      else if i = 2 then Fields.ofList [("zone", Value.str "us"), ("id", Value.int 7)]
      else if i = 3 then
        Fields.ofList [("id", Value.int 7), ("zone", Value.str "eu"), ("age", Value.int 99)]
      else if i = 4 then
        Fields.ofList [("zone", Value.str "eu"), ("age", Value.int 18),
          ("name", Value.str "john doe")]
      else Fields.empty,
    sinks := fun _ => { failing := false, calls := [], content := "" } }

/-- A clock reading and call stack for examples. -/
def testEnv : Env :=
  { stamp := "2021/03/04 05:06:07.000008 ",
    caller := fun _ => "logger_test.go:64: " }

/-! ## The order of keys -/

theorem lessChars_asymm : ∀ a b : List Char, lessChars a b = true → lessChars b a = false
  | _, [], h => by simp [lessChars] at h
  | [], _ :: _, _ => by simp [lessChars]
  | a :: as, b :: bs, h => by
    rcases lt_trichotomy a b with hab | hab | hab
    · simp [lessChars, hab, not_lt_of_lt hab]
    · subst hab
      simp only [lessChars, lt_irrefl, if_false] at h ⊢
      exact lessChars_asymm as bs h
    · simp [lessChars, hab, not_lt_of_lt hab] at h

theorem lessChars_eq_of_not : ∀ a b : List Char,
    lessChars a b = false → lessChars b a = false → a = b
  | [], [], _, _ => rfl
  | [], _ :: _, h, _ => by simp [lessChars] at h
  | _ :: _, [], _, h => by simp [lessChars] at h
  | a :: as, b :: bs, h1, h2 => by
    rcases lt_trichotomy a b with hab | hab | hab
    · simp [lessChars, hab] at h1
    · subst hab
      simp only [lessChars, lt_irrefl, if_false] at h1 h2
      rw [lessChars_eq_of_not as bs h1 h2]
    · simp [lessChars, hab] at h2

theorem lessChars_trans_le : ∀ a b c : List Char,
    lessChars b a = false → lessChars c b = false → lessChars c a = false
  | [], _, _, _, _ => by cases ‹List Char› <;> simp [lessChars]
  | _ :: _, [], _, h, _ => by simp [lessChars] at h
  | _ :: _, _ :: _, [], _, h => by simp [lessChars] at h
  | a :: as, b :: bs, c :: cs, h1, h2 => by
    rcases lt_trichotomy a b with hab | hab | hab
    · rcases lt_trichotomy b c with hbc | hbc | hbc
      · have hac := lt_trans hab hbc
        simp [lessChars, hac, not_lt_of_lt hac]
      · subst hbc
        simp [lessChars, hab, not_lt_of_lt hab]
      · simp [lessChars, hbc] at h2
    · subst hab
      rcases lt_trichotomy a c with hbc | hbc | hbc
      · simp [lessChars, hbc, not_lt_of_lt hbc]
      · subst hbc
        simp only [lessChars, lt_irrefl, if_false] at h1 h2 ⊢
        exact lessChars_trans_le as bs cs h1 h2
      · simp [lessChars, hbc] at h2
    · simp [lessChars, hab] at h1

theorem keyLE_total (a b : String) : keyLE a b ∨ keyLE b a := by
  unfold keyLE less
  cases h : lessChars b.toList a.toList with
  | false => exact Or.inl rfl
  | true => exact Or.inr (lessChars_asymm _ _ h)

theorem keyLE_trans {a b c : String} (h1 : keyLE a b) (h2 : keyLE b c) : keyLE a c :=
  lessChars_trans_le a.toList b.toList c.toList h1 h2

theorem keyLE_antisymm {a b : String} (h1 : keyLE a b) (h2 : keyLE b a) : a = b :=
  String.toList_inj.1 (lessChars_eq_of_not a.toList b.toList h2 h1)

instance : IsTotal String keyLE := ⟨keyLE_total⟩

instance : IsTrans String keyLE := ⟨fun _ _ _ => keyLE_trans⟩

instance : IsAntisymm String keyLE := ⟨fun _ _ => keyLE_antisymm⟩

theorem sortStrings_perm (ks : List String) : (sortStrings ks).Perm ks :=
  List.perm_insertionSort keyLE ks

theorem sortStrings_sorted (ks : List String) : (sortStrings ks).Sorted keyLE :=
  List.sorted_insertionSort keyLE ks

theorem sortStrings_eq_of_perm {a b : List String} (h : a.Perm b) :
    sortStrings a = sortStrings b :=
  List.eq_of_perm_of_sorted
    (((sortStrings_perm a).trans h).trans (sortStrings_perm b).symm)
    (sortStrings_sorted a) (sortStrings_sorted b)

theorem sortStrings_strict (ks : List String) (h : ks.Nodup) :
    (sortStrings ks).Sorted (fun a b => less a b = true) := by
  have hs : (sortStrings ks).Pairwise keyLE := sortStrings_sorted ks
  have hn : (sortStrings ks).Pairwise (fun a b => a ≠ b) :=
    (sortStrings_perm ks).nodup_iff.2 h
  refine (hs.and hn).imp ?_
  intro a b hab
  cases hl : less a b with
  | true => rfl
  | false => exact absurd (keyLE_antisymm hab.1 hl) hab.2

/-! ## Reading association lists -/

theorem lookupEntry_eq_none_iff (es : List (String × Value)) (k : String) :
    lookupEntry es k = none ↔ k ∉ es.map Prod.fst := by
  induction es with
  | nil => simp [lookupEntry]
  | cons e rest ih =>
    obtain ⟨k', v'⟩ := e
    by_cases h : k' = k
    · simp [lookupEntry, h]
    · simp only [lookupEntry, if_neg h, ih, List.map_cons, List.mem_cons, not_or]
      exact ⟨fun hr => ⟨fun hc => h hc.symm, hr⟩, fun hr => hr.2⟩

theorem lookupEntry_of_mem (es : List (String × Value)) (h : (es.map Prod.fst).Nodup)
    (k : String) (v : Value) (hm : (k, v) ∈ es) : lookupEntry es k = some v := by
  induction es with
  | nil => simp at hm
  | cons e rest ih =>
    obtain ⟨k', v'⟩ := e
    simp only [List.map_cons, List.nodup_cons] at h
    rcases List.mem_cons.1 hm with heq | hin
    · injection heq with h1 h2
      subst h1 h2
      simp [lookupEntry]
    · have hne : k' ≠ k := by
        intro hc
        subst hc
        exact h.1 (List.mem_map_of_mem Prod.fst hin)
      simp only [lookupEntry, if_neg hne]
      exact ih h.2 hin

theorem lookupEntry_assignEntry (es : List (String × Value)) (k : String) (v : Value)
    (x : String) :
    lookupEntry (assignEntry es k v) x = if x = k then some v else lookupEntry es x := by
  induction es with
  | nil =>
    by_cases h : x = k
    · simp [assignEntry, lookupEntry, h]
    · have h' : ¬ k = x := fun hc => h hc.symm
      simp [assignEntry, lookupEntry, h, h']
  | cons e rest ih =>
    obtain ⟨k', v'⟩ := e
    by_cases hk : k' = k
    · subst hk
      by_cases hx : x = k'
      · simp [assignEntry, lookupEntry, hx]
      · have hx' : ¬ k' = x := fun hc => hx hc.symm
        simp [assignEntry, lookupEntry, hx, hx']
    · by_cases hx : x = k
      · subst hx
        simp [assignEntry, lookupEntry, hk, ih]
      · simp [assignEntry, lookupEntry, hk, hx, ih]

theorem Fields.get_set (m : Fields) (k : String) (v : Value) (x : String) :
    (m.set k v).get x = if x = k then some v else m.get x :=
  lookupEntry_assignEntry m.entries k v x

theorem Fields.mem_keys_iff (m : Fields) (k : String) : k ∈ m.keys ↔ m.get k ≠ none := by
  unfold Fields.keys Fields.get
  rw [Ne, lookupEntry_eq_none_iff, not_not]

theorem Fields.index_of_mem (m : Fields) (e : String × Value) (h : e ∈ m.entries) :
    m.index e.1 = e.2 := by
  unfold Fields.index Fields.get
  rw [lookupEntry_of_mem m.entries m.nodup e.1 e.2 h]
  rfl

theorem Fields.keys_perm_of_get_eq (m₁ m₂ : Fields) (h : ∀ k, m₁.get k = m₂.get k) :
    m₁.keys.Perm m₂.keys := by
  refine (List.perm_ext_iff_of_nodup m₁.nodup m₂.nodup).2 ?_
  intro k
  rw [← Fields.keys, ← Fields.keys, Fields.mem_keys_iff, Fields.mem_keys_iff, h k]

theorem Fields.get_eq_of_perm (m₁ m₂ : Fields) (h : m₁.entries.Perm m₂.entries)
    (k : String) : m₁.get k = m₂.get k := by
  unfold Fields.get
  cases h1 : lookupEntry m₁.entries k with
  | none =>
    symm
    rw [lookupEntry_eq_none_iff] at h1 ⊢
    exact fun hc => h1 ((h.map Prod.fst).mem_iff.2 hc)
  | some v =>
    have hk : k ∈ m₁.entries.map Prod.fst := by
      by_contra hc
      rw [(lookupEntry_eq_none_iff _ _).2 hc] at h1
      cases h1
    obtain ⟨e, he, hek⟩ := List.mem_map.1 hk
    have hv : lookupEntry m₁.entries e.1 = some e.2 :=
      lookupEntry_of_mem m₁.entries m₁.nodup e.1 e.2 he
    rw [hek, h1] at hv
    have he2 : (k, v) ∈ m₂.entries := by
      have := h.mem_iff.1 he
      rw [show e = (k, v) from Prod.ext hek (Option.some.inj hv).symm] at this
      exact this
    exact (lookupEntry_of_mem m₂.entries m₂.nodup k v he2).symm

/-! ## The rendered field line -/

theorem createFieldsLine_eq (fields : Fields) :
    createFieldsLine fields = String.join ((sortStrings fields.keys).map (fieldPair fields)) := by
  unfold createFieldsLine
  split
  · rename_i h
    have he : fields.entries = [] := List.length_eq_zero.1 h
    simp [Fields.keys, he, sortStrings, String.join]
  · rfl

theorem createFieldsLine_congr (m₁ m₂ : Fields) (h : ∀ k, m₁.get k = m₂.get k) :
    createFieldsLine m₁ = createFieldsLine m₂ := by
  rw [createFieldsLine_eq, createFieldsLine_eq,
    sortStrings_eq_of_perm (Fields.keys_perm_of_get_eq m₁ m₂ h)]
  congr 1
  refine List.map_congr_left ?_
  intro k _
  simp [fieldPair, Fields.index, h k]

/-- C2: `createFieldsLine` returns the concatenation of `key=value ` pieces
over the entries of the mapping arranged by strictly ascending key. -/
theorem createFieldsLine_sorted_pairs (fields : Fields) :
    ∃ es : List (String × Value),
      es.Perm fields.entries ∧
      (es.map Prod.fst).Sorted (fun a b => less a b = true) ∧
      createFieldsLine fields
        = String.join (es.map fun e => e.1 ++ "=" ++ e.2.format ++ " ") := by
  refine ⟨(sortStrings fields.keys).map (fun k => (k, fields.index k)), ?_, ?_, ?_⟩
  · have h1 : ((sortStrings fields.keys).map (fun k => (k, fields.index k))).Perm
        (fields.keys.map (fun k => (k, fields.index k))) :=
      (sortStrings_perm fields.keys).map _
    have h2 : fields.keys.map (fun k => (k, fields.index k)) = fields.entries := by
      unfold Fields.keys
      rw [List.map_map]
      conv_rhs => rw [← List.map_id fields.entries]
      refine List.map_congr_left ?_
      intro e he
      exact Prod.ext rfl (Fields.index_of_mem fields e he)
    rw [← h2]
    exact h1
  · rw [List.map_map]
    have : (Prod.fst ∘ fun k => (k, fields.index k)) = (id : String → String) := rfl
    rw [this, List.map_id]
    exact sortStrings_strict fields.keys fields.nodup
  · rw [createFieldsLine_eq, List.map_map]
    rfl

/-- C3: two mappings holding the same key/value pairs, in particular two
listings of the same entries in different iteration orders, render to the
same field line. -/
theorem createFieldsLine_order_independent (m₁ m₂ : Fields)
    (h : m₁.entries.Perm m₂.entries ∨ ∀ k, m₁.get k = m₂.get k) :
    createFieldsLine m₁ = createFieldsLine m₂ := by
  rcases h with h | h
  · exact createFieldsLine_congr m₁ m₂ (Fields.get_eq_of_perm m₁ m₂ h)
  · exact createFieldsLine_congr m₁ m₂ h

theorem createFieldsLine_order_independent_witness :
    (Fields.ofList [("name", Value.str "john doe"), ("age", Value.int 18)]).entries.Perm
        (Fields.ofList [("age", Value.int 18), ("name", Value.str "john doe")]).entries
      ∧ createFieldsLine (Fields.ofList [("name", Value.str "john doe"), ("age", Value.int 18)])
        = createFieldsLine (Fields.ofList [("age", Value.int 18), ("name", Value.str "john doe")]) :=
  ⟨List.Perm.swap _ _ _,
   createFieldsLine_order_independent _ _ (Or.inl (List.Perm.swap _ _ _))⟩

/-! ## Forking: `Sub` -/

theorem rangeAssign_some (w : World) (i : Nat) (es : List (String × Value)) :
    rangeAssign w (some i) es = some (w.setMap i (assignAll es (w.maps i))) := by
  induction es generalizing w with
  | nil => simp [rangeAssign, assignAll, World.setMap]
  | cons e rest ih =>
    obtain ⟨k, v⟩ := e
    simp only [rangeAssign, mapassign, ih, assignAll, List.foldl_cons, World.setMap,
      Function.update_same, Function.update_idem]

theorem get_assignAll (es : List (String × Value)) (h : (es.map Prod.fst).Nodup)
    (m : Fields) (k : String) :
    (assignAll es m).get k = (lookupEntry es k).orElse (fun _ => m.get k) := by
  induction es generalizing m with
  | nil => simp [lookupEntry, assignAll]
  | cons e rest ih =>
    obtain ⟨k', v'⟩ := e
    simp only [List.map_cons, List.nodup_cons] at h
    have hstep : assignAll ((k', v') :: rest) m = assignAll rest (m.set k' v') := rfl
    rw [hstep, ih h.2, Fields.get_set]
    by_cases hk : k' = k
    · subst hk
      have hn : lookupEntry rest k' = none := (lookupEntry_eq_none_iff rest k').2 h.1
      simp [lookupEntry, hn]
    · have hk' : ¬ k = k' := fun hc => hk hc.symm
      simp [lookupEntry, hk, hk']

theorem Sub_some (l : Logger) (w : World) (i : Nat) :
    l.Sub w (some i)
      = (w.setMap i (assignAll (w.load l.fields).entries (w.maps i)),
         Outcome.returned (NewLogger
           (w.setMap i (assignAll (w.load l.fields).entries (w.maps i)))
           l.out l.level (some i))) := by
  unfold Logger.Sub
  rw [rangeAssign_some]

theorem Sub_some_get (l : Logger) (w : World) (i : Nat) (k : String) :
    ((l.Sub w (some i)).1.maps i).get k
      = ((w.load l.fields).get k).orElse (fun _ => (w.maps i).get k) := by
  rw [Sub_some]
  simp only [World.setMap, Function.update_same]
  exact get_assignAll _ (w.load l.fields).nodup _ k

/-- C1: for a logger `l` and a mapping `f` (the map at address `i`), `l.Sub(f)`
returns a logger whose field mapping holds every key of `l` with the value `l`
holds (also when `f` has the key), and under any other key exactly what `f`
holds there. -/
theorem Sub_fields_union (l : Logger) (w : World) (i : Nat) :
    ∃ w' l', l.Sub w (some i) = (w', Outcome.returned l') ∧
      (∀ k v, (w.load l.fields).get k = some v → (w'.load l'.fields).get k = some v) ∧
      (∀ k, (w.load l.fields).get k = none →
        (w'.load l'.fields).get k = (w.load (some i)).get k) := by
  refine ⟨(l.Sub w (some i)).1, NewLogger (l.Sub w (some i)).1 l.out l.level (some i), ?_, ?_, ?_⟩
  · rw [Sub_some]
  · intro k v hk
    show (((l.Sub w (some i)).1).maps i).get k = some v
    rw [Sub_some_get, hk]
    rfl
  · intro k hk
    show (((l.Sub w (some i)).1).maps i).get k = (w.maps i).get k
    rw [Sub_some_get, hk]
    rfl

/-- C7: `Level()` of a logger from `NewLogger` is the severity passed in; a
call of `Sub` returns a logger with the severity of its receiver, and it
returns whenever the mapping passed is not the nil map. -/
theorem Level_eq_configured :
    (∀ (w : World) (out : Nat) (lvl : Level) (f : MapRef),
        (NewLogger w out lvl f).Level = lvl) ∧
    (∀ (l : Logger) (w : World) (g : MapRef),
        match (l.Sub w g).2 with
        | Outcome.returned l' => l'.Level = l.Level
        | Outcome.panicked _ => g = none
        | Outcome.exited _ => False) := by
  refine ⟨fun _ _ _ _ => rfl, ?_⟩
  intro l w g
  cases g with
  | some i => rw [Sub_some]; exact rfl
  | none =>
    unfold Logger.Sub
    cases h : rangeAssign w none (w.load l.fields).entries with
    | none => exact rfl
    | some w' => exact rfl

/-! ## Emission -/

theorem write_wrote (w : World) (out : Nat) (t : String) :
    Wrote w (w.write out t).1 out t := by
  refine ⟨?_, ?_, ?_, ?_, rfl⟩
  · simp [World.write]
  · simp [World.write]
  · simp [World.write]
  · intro o ho
    simp [World.write, Function.update_noteq ho]

theorem formatHeader_createLogger (out : Nat) (lvl : Level) (fieldLine : String)
    (env : Env) (d : Nat) :
    formatHeader (createLogger out lvl fieldLine) env d
      = env.stamp ++ env.caller d ++ (levelMap lvl ++ " " ++ fieldLine) := by
  have h1 : (LstdFlags ||| Lmicroseconds ||| LUTC ||| Lmsgprefix ||| Lshortfile)
      &&& Lmsgprefix ≠ 0 := by decide
  have h2 : (LstdFlags ||| Lmicroseconds ||| LUTC ||| Lmsgprefix ||| Lshortfile)
      &&& (Ldate ||| Ltime ||| Lmicroseconds) ≠ 0 := by decide
  have h3 : (LstdFlags ||| Lmicroseconds ||| LUTC ||| Lmsgprefix ||| Lshortfile)
      &&& (Lshortfile ||| Llongfile) ≠ 0 := by decide
  simp only [formatHeader, createLogger, if_neg h1, if_pos h1, if_pos h2, if_pos h3,
    String.empty_append]

theorem output_wrote (out : Nat) (lvl : Level) (fieldLine : String) (env : Env) (w : World)
    (args : List Value) :
    Wrote w (output (createLogger out lvl fieldLine) env w args).1 out
      (env.stamp ++ env.caller 3 ++ (levelMap lvl ++ " " ++ fieldLine) ++ Sprint args
        ++ lineEnd (Sprint args)) := by
  have h : (output (createLogger out lvl fieldLine) env w args).1
      = (w.write out (lineText (createLogger out lvl fieldLine) env 3 (Sprint args))).1 := rfl
  rw [h, lineText, formatHeader_createLogger]
  exact write_wrote _ _ _

theorem outputf_wrote (sprintf : String → List Value → String) (out : Nat) (lvl : Level)
    (fieldLine : String) (env : Env) (w : World) (msg : String) (args : List Value) :
    Wrote w (outputf sprintf (createLogger out lvl fieldLine) env w msg args).1 out
      (env.stamp ++ env.caller 3 ++ (levelMap lvl ++ " " ++ fieldLine) ++ sprintf msg args
        ++ lineEnd (sprintf msg args)) := by
  have h : (outputf sprintf (createLogger out lvl fieldLine) env w msg args).1
      = (w.write out
          (lineText (createLogger out lvl fieldLine) env 3 (sprintf msg args))).1 := rfl
  rw [h, lineText, formatHeader_createLogger]
  exact write_wrote _ _ _

theorem output_containing (out : Nat) (lvl : Level) (fieldLine : String) (env : Env)
    (w : World) (args : List Value) :
    WroteContaining w (output (createLogger out lvl fieldLine) env w args).1 out
      (levelMap lvl ++ " " ++ fieldLine ++ Sprint args) := by
  refine ⟨env.stamp ++ env.caller 3, lineEnd (Sprint args), ?_⟩
  have h := output_wrote out lvl fieldLine env w args
  simpa only [String.append_assoc] using h

theorem outputf_containing (sprintf : String → List Value → String) (out : Nat)
    (lvl : Level) (fieldLine : String) (env : Env) (w : World) (msg : String)
    (args : List Value) :
    WroteContaining w (outputf sprintf (createLogger out lvl fieldLine) env w msg args).1 out
      (levelMap lvl ++ " " ++ fieldLine ++ sprintf msg args) := by
  refine ⟨env.stamp ++ env.caller 3, lineEnd (sprintf msg args), ?_⟩
  have h := outputf_wrote sprintf out lvl fieldLine env w msg args
  simpa only [String.append_assoc] using h

/-- C4: every emission method of a logger built from the mapping `F` hands the
sink a text that contains tag, one space, `createFieldsLine(F)` and the
message; with the fields of the tests, `Info("hello world")` writes a text
containing `INF age=18 name=john doe hello world`; for an empty or nil mapping
the field line is empty, so the tag is followed by one space and the message. -/
theorem emission_contains_tag_fields_message :
    (∀ (sprintf : String → List Value → String) (w₀ : World) (out : Nat) (lvl : Level)
        (f : MapRef) (env : Env) (w : World) (msg : String) (args : List Value),
      WroteContaining w ((NewLogger w₀ out lvl f).Debug env w args).1 out
        ("DBG" ++ " " ++ createFieldsLine (w₀.load f) ++ Sprint args) ∧
      WroteContaining w ((NewLogger w₀ out lvl f).Debugf sprintf env w msg args).1 out
        ("DBG" ++ " " ++ createFieldsLine (w₀.load f) ++ sprintf msg args) ∧
      WroteContaining w ((NewLogger w₀ out lvl f).Info env w args).1 out
        ("INF" ++ " " ++ createFieldsLine (w₀.load f) ++ Sprint args) ∧
      WroteContaining w ((NewLogger w₀ out lvl f).Infof sprintf env w msg args).1 out
        ("INF" ++ " " ++ createFieldsLine (w₀.load f) ++ sprintf msg args) ∧
      WroteContaining w ((NewLogger w₀ out lvl f).Warn env w args).1 out
        ("WRN" ++ " " ++ createFieldsLine (w₀.load f) ++ Sprint args) ∧
      WroteContaining w ((NewLogger w₀ out lvl f).Warnf sprintf env w msg args).1 out
        ("WRN" ++ " " ++ createFieldsLine (w₀.load f) ++ sprintf msg args) ∧
      WroteContaining w ((NewLogger w₀ out lvl f).Error env w args).1 out
        ("ERR" ++ " " ++ createFieldsLine (w₀.load f) ++ Sprint args) ∧
      WroteContaining w ((NewLogger w₀ out lvl f).Errorf sprintf env w msg args).1 out
        ("ERR" ++ " " ++ createFieldsLine (w₀.load f) ++ sprintf msg args) ∧
      WroteContaining w ((NewLogger w₀ out lvl f).Panic env w args).1 out
        ("PNC" ++ " " ++ createFieldsLine (w₀.load f) ++ Sprint args) ∧
      WroteContaining w ((NewLogger w₀ out lvl f).Panicf sprintf env w msg args).1 out
        ("PNC" ++ " " ++ createFieldsLine (w₀.load f) ++ sprintf msg args) ∧
      WroteContaining w ((NewLogger w₀ out lvl f).Fatal env w args).1 out
        ("FTL" ++ " " ++ createFieldsLine (w₀.load f) ++ Sprint args) ∧
      WroteContaining w ((NewLogger w₀ out lvl f).Fatalf sprintf env w msg args).1 out
        ("FTL" ++ " " ++ createFieldsLine (w₀.load f) ++ sprintf msg args)) ∧
    (∀ (env : Env) (w : World),
      WroteContaining w
        ((NewLogger testWorld 0 Level.InfoLevel (some 0)).Info env w
          [Value.str "hello world"]).1 0
        "INF age=18 name=john doe hello world") ∧
    (∀ (w₀ : World) (i : Nat),
      createFieldsLine (w₀.load none) = "" ∧
      createFieldsLine ((w₀.setMap i Fields.empty).load (some i)) = "") ∧
    (∀ (w₀ : World) (i out : Nat) (lvl : Level) (env : Env) (w : World) (args : List Value),
      WroteContaining w
        ((NewLogger (w₀.setMap i Fields.empty) out lvl (some i)).Info env w args).1 out
        ("INF" ++ " " ++ Sprint args)) := by
  refine ⟨?_, ?_, ?_, ?_⟩
  · intro sprintf w₀ out lvl f env w msg args
    exact ⟨output_containing out Level.DebugLevel _ env w args,
      outputf_containing sprintf out Level.DebugLevel _ env w msg args,
      output_containing out Level.InfoLevel _ env w args,
      outputf_containing sprintf out Level.InfoLevel _ env w msg args,
      output_containing out Level.WarnLevel _ env w args,
      outputf_containing sprintf out Level.WarnLevel _ env w msg args,
      output_containing out Level.ErrorLevel _ env w args,
      outputf_containing sprintf out Level.ErrorLevel _ env w msg args,
      output_containing out Level.PanicLevel _ env w args,
      outputf_containing sprintf out Level.PanicLevel _ env w msg args,
      output_containing out Level.FatalLevel _ env w args,
      outputf_containing sprintf out Level.FatalLevel _ env w msg args⟩
  · intro env w
    have h := output_containing 0 Level.InfoLevel
      (createFieldsLine (testWorld.load (some 0))) env w [Value.str "hello world"]
    have e : levelMap Level.InfoLevel ++ " " ++ createFieldsLine (testWorld.load (some 0))
        ++ Sprint [Value.str "hello world"] = "INF age=18 name=john doe hello world" := by
      decide
    rw [e] at h
    exact h
  · intro w₀ i
    constructor
    · rfl
    · simp [World.load, World.setMap, createFieldsLine, Fields.len, Fields.empty]
  · intro w₀ i out lvl env w args
    have h := output_containing out Level.InfoLevel
      (createFieldsLine ((w₀.setMap i Fields.empty).load (some i))) env w args
    have e : createFieldsLine ((w₀.setMap i Fields.empty).load (some i)) = "" := by
      simp [World.load, World.setMap, createFieldsLine, Fields.len, Fields.empty]
    have e2 : "INF" ++ " " ++ Sprint args
        = levelMap Level.InfoLevel ++ " "
          ++ createFieldsLine ((w₀.setMap i Fields.empty).load (some i)) ++ Sprint args := by
      rw [e, String.append_empty]
      rfl
    rw [e2]
    exact h

/-! ## Lines -/

theorem lineCount_append (a b : String) : lineCount (a ++ b) = lineCount a + lineCount b := by
  unfold lineCount
  simp only [String.toList, String.data_append, List.count_append]

theorem lineCount_of_isLine {t : String} (h : IsLine t) : lineCount t = 1 := by
  obtain ⟨body, hb, rfl⟩ := h
  rw [lineCount_append, hb]
  rfl

theorem lineEnd_of_lineCount_zero {s : String} (h : lineCount s = 0) : lineEnd s = "\n" := by
  unfold lineEnd
  split
  · rename_i hl
    have hm : '\n' ∈ s.toList := List.mem_of_mem_getLast? hl
    exact absurd hm (List.count_eq_zero.1 h)
  · rfl

theorem isLine_record (head msg : String) (h : lineCount (head ++ msg) = 0) :
    IsLine (head ++ msg ++ lineEnd msg) := by
  have hm : lineCount msg = 0 := by
    rw [lineCount_append] at h
    omega
  exact ⟨head ++ msg, h, by rw [lineEnd_of_lineCount_zero hm]⟩

theorem output_oneRecord (out : Nat) (lvl : Level) (fieldLine : String) (env : Env)
    (w : World) (args : List Value) :
    OneRecord w (output (createLogger out lvl fieldLine) env w args).1 out
      (env.stamp ++ env.caller 3 ++ (levelMap lvl ++ " " ++ fieldLine)) (Sprint args) :=
  ⟨output_wrote out lvl fieldLine env w args, isLine_record _ _⟩

theorem outputf_oneRecord (sprintf : String → List Value → String) (out : Nat)
    (lvl : Level) (fieldLine : String) (env : Env) (w : World) (msg : String)
    (args : List Value) :
    OneRecord w (outputf sprintf (createLogger out lvl fieldLine) env w msg args).1 out
      (env.stamp ++ env.caller 3 ++ (levelMap lvl ++ " " ++ fieldLine)) (sprintf msg args) :=
  ⟨outputf_wrote sprintf out lvl fieldLine env w msg args, isLine_record _ _⟩

/-- C5 (as stated, refuted): on a logger configured at Error severity,
`Debug("a\nb")` hands the sink one buffer that holds two lines. -/
theorem Debug_two_lines :
    (((NewLogger testWorld 0 Level.ErrorLevel none).Debug testEnv testWorld
        [Value.str "a\nb"]).1.sinks 0).calls
      = ["2021/03/04 05:06:07.000008 logger_test.go:64: DBG a\nb\n"] ∧
    lineCount "2021/03/04 05:06:07.000008 logger_test.go:64: DBG a\nb\n" = 2 ∧
    ¬ IsLine "2021/03/04 05:06:07.000008 logger_test.go:64: DBG a\nb\n" := by
  refine ⟨by decide, by decide, ?_⟩
  intro h
  have h1 := lineCount_of_isLine h
  revert h1
  decide

/-- C5 (amended): whatever severity the logger was configured with, each call
of Debug, Debugf, Info, Infof, Warn, Warnf, Error or Errorf performs exactly
one write on the sink, of time stamp, call site, tag, space, field line,
message and line end, and returns; that buffer is exactly one line when none
of its parts holds a newline. -/
theorem leveled_emission_one_record
    (sprintf : String → List Value → String) (w₀ : World) (out : Nat) (lvl : Level)
    (f : MapRef) (env : Env) (w : World) (msg : String) (args : List Value) :
    (OneRecord w ((NewLogger w₀ out lvl f).Debug env w args).1 out
        (env.stamp ++ env.caller 3 ++ ("DBG" ++ " " ++ createFieldsLine (w₀.load f)))
        (Sprint args) ∧
      ((NewLogger w₀ out lvl f).Debug env w args).2 = Outcome.returned ()) ∧
    (OneRecord w ((NewLogger w₀ out lvl f).Debugf sprintf env w msg args).1 out
        (env.stamp ++ env.caller 3 ++ ("DBG" ++ " " ++ createFieldsLine (w₀.load f)))
        (sprintf msg args) ∧
      ((NewLogger w₀ out lvl f).Debugf sprintf env w msg args).2 = Outcome.returned ()) ∧
    (OneRecord w ((NewLogger w₀ out lvl f).Info env w args).1 out
        (env.stamp ++ env.caller 3 ++ ("INF" ++ " " ++ createFieldsLine (w₀.load f)))
        (Sprint args) ∧
      ((NewLogger w₀ out lvl f).Info env w args).2 = Outcome.returned ()) ∧
    (OneRecord w ((NewLogger w₀ out lvl f).Infof sprintf env w msg args).1 out
        (env.stamp ++ env.caller 3 ++ ("INF" ++ " " ++ createFieldsLine (w₀.load f)))
        (sprintf msg args) ∧
      ((NewLogger w₀ out lvl f).Infof sprintf env w msg args).2 = Outcome.returned ()) ∧
    (OneRecord w ((NewLogger w₀ out lvl f).Warn env w args).1 out
        (env.stamp ++ env.caller 3 ++ ("WRN" ++ " " ++ createFieldsLine (w₀.load f)))
        (Sprint args) ∧
      ((NewLogger w₀ out lvl f).Warn env w args).2 = Outcome.returned ()) ∧
    (OneRecord w ((NewLogger w₀ out lvl f).Warnf sprintf env w msg args).1 out
        (env.stamp ++ env.caller 3 ++ ("WRN" ++ " " ++ createFieldsLine (w₀.load f)))
        (sprintf msg args) ∧
      ((NewLogger w₀ out lvl f).Warnf sprintf env w msg args).2 = Outcome.returned ()) ∧
    (OneRecord w ((NewLogger w₀ out lvl f).Error env w args).1 out
        (env.stamp ++ env.caller 3 ++ ("ERR" ++ " " ++ createFieldsLine (w₀.load f)))
        (Sprint args) ∧
      ((NewLogger w₀ out lvl f).Error env w args).2 = Outcome.returned ()) ∧
    (OneRecord w ((NewLogger w₀ out lvl f).Errorf sprintf env w msg args).1 out
        (env.stamp ++ env.caller 3 ++ ("ERR" ++ " " ++ createFieldsLine (w₀.load f)))
        (sprintf msg args) ∧
      ((NewLogger w₀ out lvl f).Errorf sprintf env w msg args).2 = Outcome.returned ()) :=
  ⟨⟨output_oneRecord out Level.DebugLevel _ env w args, rfl⟩,
   ⟨outputf_oneRecord sprintf out Level.DebugLevel _ env w msg args, rfl⟩,
   ⟨output_oneRecord out Level.InfoLevel _ env w args, rfl⟩,
   ⟨outputf_oneRecord sprintf out Level.InfoLevel _ env w msg args, rfl⟩,
   ⟨output_oneRecord out Level.WarnLevel _ env w args, rfl⟩,
   ⟨outputf_oneRecord sprintf out Level.WarnLevel _ env w msg args, rfl⟩,
   ⟨output_oneRecord out Level.ErrorLevel _ env w args, rfl⟩,
   ⟨outputf_oneRecord sprintf out Level.ErrorLevel _ env w msg args, rfl⟩⟩

theorem leveled_emission_one_record_witness :
    IsLine (testEnv.stamp ++ testEnv.caller 3
      ++ ("DBG" ++ " " ++ createFieldsLine (testWorld.load (some 0)))
      ++ Sprint [Value.str "hello world"] ++ lineEnd (Sprint [Value.str "hello world"])) :=
  (leveled_emission_one_record (fun s _ => s) testWorld 0 Level.ErrorLevel (some 0)
    testEnv testWorld "" [Value.str "hello world"]).1.1.2 (by decide)

/-- C8 (as stated, refuted): `Panic("a\nb")` hands the sink a buffer of two
lines, of which only the first carries the tag. -/
theorem Panic_two_lines :
    (((NewLogger testWorld 0 Level.InfoLevel none).Panic testEnv testWorld
        [Value.str "a\nb"]).1.sinks 0).calls
      = ["2021/03/04 05:06:07.000008 logger_test.go:64: PNC a\nb\n"] ∧
    lineCount "2021/03/04 05:06:07.000008 logger_test.go:64: PNC a\nb\n" = 2 ∧
    ¬ IsLine "2021/03/04 05:06:07.000008 logger_test.go:64: PNC a\nb\n" := by
  refine ⟨by decide, by decide, ?_⟩
  intro h
  have h1 := lineCount_of_isLine h
  revert h1
  decide

/-- C8 (amended): `Panic` (resp. `Panicf`) performs exactly one write on the
sink, of time stamp, call site, `PNC`, space, field line, rendered message and
line end, and ends in a panic whose payload is that rendered message, so it
never returns normally; the buffer is exactly one line when none of its parts
holds a newline. -/
theorem Panic_writes_then_panics
    (sprintf : String → List Value → String) (w₀ : World) (out : Nat) (lvl : Level)
    (f : MapRef) (env : Env) (w : World) (msg : String) (args : List Value) :
    (OneRecord w ((NewLogger w₀ out lvl f).Panic env w args).1 out
        (env.stamp ++ env.caller 3 ++ ("PNC" ++ " " ++ createFieldsLine (w₀.load f)))
        (Sprint args) ∧
      ((NewLogger w₀ out lvl f).Panic env w args).2
        = Outcome.panicked (Value.str (Sprint args))) ∧
    (OneRecord w ((NewLogger w₀ out lvl f).Panicf sprintf env w msg args).1 out
        (env.stamp ++ env.caller 3 ++ ("PNC" ++ " " ++ createFieldsLine (w₀.load f)))
        (sprintf msg args) ∧
      ((NewLogger w₀ out lvl f).Panicf sprintf env w msg args).2
        = Outcome.panicked (Value.str (sprintf msg args))) :=
  ⟨⟨output_oneRecord out Level.PanicLevel _ env w args, rfl⟩,
   ⟨outputf_oneRecord sprintf out Level.PanicLevel _ env w msg args, rfl⟩⟩

theorem Panic_writes_then_panics_witness :
    IsLine (testEnv.stamp ++ testEnv.caller 3
      ++ ("PNC" ++ " " ++ createFieldsLine (testWorld.load (some 0)))
      ++ Sprint [Value.str "hello world"] ++ lineEnd (Sprint [Value.str "hello world"])) :=
  (Panic_writes_then_panics (fun s _ => s) testWorld 0 Level.InfoLevel (some 0)
    testEnv testWorld "" [Value.str "hello world"]).1.1.2 (by decide)

/-- C9 (as stated, refuted): `Fatal("a\nb")` hands the sink a buffer of two
lines, of which only the first carries the tag. -/
theorem Fatal_two_lines :
    (((NewLogger testWorld 0 Level.InfoLevel none).Fatal testEnv testWorld
        [Value.str "a\nb"]).1.sinks 0).calls
      = ["2021/03/04 05:06:07.000008 logger_test.go:64: FTL a\nb\n"] ∧
    lineCount "2021/03/04 05:06:07.000008 logger_test.go:64: FTL a\nb\n" = 2 ∧
    ¬ IsLine "2021/03/04 05:06:07.000008 logger_test.go:64: FTL a\nb\n" := by
  refine ⟨by decide, by decide, ?_⟩
  intro h
  have h1 := lineCount_of_isLine h
  revert h1
  decide

/-- C9 (amended): `Fatal` (resp. `Fatalf`) performs exactly one write on the
sink, of time stamp, call site, `FTL`, space, field line, rendered message and
line end, and then ends the process with exit status 1, whether or not the
sink accepted the write, so it never returns; the buffer is exactly one line
when none of its parts holds a newline. -/
theorem Fatal_writes_then_exits
    (sprintf : String → List Value → String) (w₀ : World) (out : Nat) (lvl : Level)
    (f : MapRef) (env : Env) (w : World) (msg : String) (args : List Value) :
    (OneRecord w ((NewLogger w₀ out lvl f).Fatal env w args).1 out
        (env.stamp ++ env.caller 3 ++ ("FTL" ++ " " ++ createFieldsLine (w₀.load f)))
        (Sprint args) ∧
      ((NewLogger w₀ out lvl f).Fatal env w args).2 = Outcome.exited 1) ∧
    (OneRecord w ((NewLogger w₀ out lvl f).Fatalf sprintf env w msg args).1 out
        (env.stamp ++ env.caller 3 ++ ("FTL" ++ " " ++ createFieldsLine (w₀.load f)))
        (sprintf msg args) ∧
      ((NewLogger w₀ out lvl f).Fatalf sprintf env w msg args).2 = Outcome.exited 1) :=
  ⟨⟨output_oneRecord out Level.FatalLevel _ env w args, rfl⟩,
   ⟨outputf_oneRecord sprintf out Level.FatalLevel _ env w msg args, rfl⟩⟩

theorem Fatal_writes_then_exits_witness :
    IsLine (testEnv.stamp ++ testEnv.caller 3
      ++ ("FTL" ++ " " ++ createFieldsLine (testWorld.load (some 0)))
      ++ Sprint [Value.str "hello world"] ++ lineEnd (Sprint [Value.str "hello world"])) :=
  (Fatal_writes_then_exits (fun s _ => s) testWorld 0 Level.InfoLevel (some 0)
    testEnv testWorld "" [Value.str "hello world"]).1.1.2 (by decide)

/-! ## Forking and later mutation of the argument -/

theorem output_setMap (lw : LineWriter) (env : Env) (w : World) (args : List Value)
    (i : Nat) (m : Fields) :
    output lw env (w.setMap i m) args
      = ((output lw env w args).1.setMap i m, (output lw env w args).2) := rfl

theorem outputf_setMap (sprintf : String → List Value → String) (lw : LineWriter)
    (env : Env) (w : World) (msg : String) (args : List Value) (i : Nat) (m : Fields) :
    outputf sprintf lw env (w.setMap i m) msg args
      = ((outputf sprintf lw env w msg args).1.setMap i m,
         (outputf sprintf lw env w msg args).2) := rfl

/-- C6 (as stated, refuted): `l` holds the map of the tests, `f` is an empty
map at address 1; after `l.Sub(f)` returned `l'`, the caller's `f["zone"] = "eu"`
adds the key `zone` to the field mapping of `l'`, and a logger forked from
`l'` afterwards renders it. -/
theorem Sub_keeps_argument_map :
    ∃ w₁ l' w₂,
      (NewLogger testWorld 0 Level.InfoLevel (some 0)).Sub testWorld (some 1)
        = (w₁, Outcome.returned l') ∧
      mapassign w₁ (some 1) "zone" (Value.str "eu") = some w₂ ∧
      (w₁.load l'.fields).get "zone" = none ∧
      (w₂.load l'.fields).get "zone" = some (Value.str "eu") ∧
      (l'.Sub w₁ (some 2)).2.value?.map Logger.fieldsLine
        = some "age=18 name=john doe " ∧
      (l'.Sub w₂ (some 2)).2.value?.map Logger.fieldsLine
        = some "age=18 name=john doe zone=eu " := by
  refine ⟨((NewLogger testWorld 0 Level.InfoLevel (some 0)).Sub testWorld (some 1)).1,
    NewLogger ((NewLogger testWorld 0 Level.InfoLevel (some 0)).Sub testWorld (some 1)).1
      0 Level.InfoLevel (some 1),
    (((NewLogger testWorld 0 Level.InfoLevel (some 0)).Sub testWorld (some 1)).1).setMap 1
      (((((NewLogger testWorld 0 Level.InfoLevel (some 0)).Sub testWorld (some 1)).1).maps 1).set
        "zone" (Value.str "eu")),
    ?_, rfl, ?_, ?_, ?_, ?_⟩
  · rw [Sub_some]
    rfl
  · decide
  · decide
  · decide
  · decide

/-- C6 (amended): after `l.Sub(f)` has returned the logger `l'`, replacing the
content of `f` in any way leaves the cached field line of `l'` what it was at
the return, and changes nothing any emission method of any logger writes or
how it ends; the field mapping of `l` is unchanged unless `f` is the map of
`l` itself. The field mapping of `l'` is `f` itself and follows it. -/
theorem Sub_then_mutate_argument
    (sprintf : String → List Value → String) (l : Logger) (w : World) (i : Nat)
    (env : Env) (msg : String) (args : List Value) :
    ∃ w₁ l', l.Sub w (some i) = (w₁, Outcome.returned l') ∧
      l'.fieldsLine = createFieldsLine (w₁.load (some i)) ∧
      (∀ m : Fields,
        (w₁.setMap i m).load l'.fields = m ∧
        (w₁.setMap i m).load l.fields
          = if l.fields = some i then m else w.load l.fields) ∧
      (∀ x : Logger,
        MapBlind (fun v => x.Debug env v args) ∧
        MapBlind (fun v => x.Debugf sprintf env v msg args) ∧
        MapBlind (fun v => x.Info env v args) ∧
        MapBlind (fun v => x.Infof sprintf env v msg args) ∧
        MapBlind (fun v => x.Warn env v args) ∧
        MapBlind (fun v => x.Warnf sprintf env v msg args) ∧
        MapBlind (fun v => x.Error env v args) ∧
        MapBlind (fun v => x.Errorf sprintf env v msg args) ∧
        MapBlind (fun v => x.Panic env v args) ∧
        MapBlind (fun v => x.Panicf sprintf env v msg args) ∧
        MapBlind (fun v => x.Fatal env v args) ∧
        MapBlind (fun v => x.Fatalf sprintf env v msg args)) := by
  refine ⟨(l.Sub w (some i)).1, NewLogger (l.Sub w (some i)).1 l.out l.level (some i),
    ?_, rfl, ?_, ?_⟩
  · rw [Sub_some]
  · intro m
    constructor
    · simp [NewLogger, World.load, World.setMap]
    · rw [Sub_some]
      cases hf : l.fields with
      | none => simp [World.load]
      | some j =>
        by_cases hj : j = i
        · subst hj
          simp [World.load, World.setMap]
        · simp [World.load, World.setMap, hj, Function.update_noteq hj]
  · intro x
    exact ⟨fun _ _ _ => rfl, fun _ _ _ => rfl, fun _ _ _ => rfl, fun _ _ _ => rfl,
      fun _ _ _ => rfl, fun _ _ _ => rfl, fun _ _ _ => rfl, fun _ _ _ => rfl,
      fun _ _ _ => rfl, fun _ _ _ => rfl, fun _ _ _ => rfl, fun _ _ _ => rfl⟩

/-! ## The message of `Sprint` -/

theorem join_cons (a : String) (l : List String) :
    String.join (a :: l) = a ++ String.join l := by
  apply String.ext
  simp [String.data_join, String.data_append]

theorem doPrint_eq (p : Value) (rest : List Value) :
    doPrint false p.isString rest
      = String.join (List.zipWith (fun q x => sepBetween q x ++ x.format) (p :: rest) rest) := by
  induction rest generalizing p with
  | nil => simp [doPrint, String.join]
  | cons a rest ih =>
    rw [doPrint, ih a, List.zipWith_cons_cons, join_cons]
    cases hp : p.isString <;> cases ha : a.isString <;> simp [sepBetween, hp, ha]

theorem Sprint_eq_spacedForms (args : List Value) : Sprint args = spacedForms args := by
  cases args with
  | nil => rfl
  | cons a rest =>
    unfold Sprint spacedForms
    rw [doPrint, doPrint_eq]
    simp

theorem spacedForms_strings (ss : List String) :
    spacedForms (ss.map Value.str) = String.join ss := by
  rw [← Sprint_eq_spacedForms]
  unfold Sprint
  suffices h : ∀ b c, doPrint b c (ss.map Value.str) = String.join ss from h _ _
  induction ss with
  | nil => intro b c; simp [doPrint, String.join]
  | cons s rest ih =>
    intro b c
    rw [List.map_cons, doPrint, ih, join_cons]
    simp [Value.isString, Value.format]

/-- C10 (as stated, refuted): `Info(1, 2)` writes the message `1 2`, with a
space that the concatenation `12` of the two printable forms does not have. -/
theorem Info_puts_space_between_numbers :
    (((NewLogger testWorld 0 Level.InfoLevel none).Info testEnv testWorld
        [Value.int 1, Value.int 2]).1.sinks 0).calls
      = ["2021/03/04 05:06:07.000008 logger_test.go:64: INF 1 2\n"] ∧
    Sprint [Value.int 1, Value.int 2] = "1 2" ∧
    String.join ([Value.int 1, Value.int 2].map Value.format) = "12" := by
  refine ⟨by decide, by decide, by decide⟩

/-- C10 (amended): the message Debug, Info, Warn and Error write is the
default printable forms of the arguments put one after the other, with one
space between two adjacent arguments exactly when neither is a string; it is
their plain concatenation when all arguments are strings. -/
theorem leveled_message_spacing :
    (∀ (w₀ : World) (out : Nat) (lvl : Level) (f : MapRef) (env : Env) (w : World)
        (args : List Value),
      Wrote w ((NewLogger w₀ out lvl f).Debug env w args).1 out
        (env.stamp ++ env.caller 3 ++ ("DBG" ++ " " ++ createFieldsLine (w₀.load f))
          ++ spacedForms args ++ lineEnd (spacedForms args)) ∧
      Wrote w ((NewLogger w₀ out lvl f).Info env w args).1 out
        (env.stamp ++ env.caller 3 ++ ("INF" ++ " " ++ createFieldsLine (w₀.load f))
          ++ spacedForms args ++ lineEnd (spacedForms args)) ∧
      Wrote w ((NewLogger w₀ out lvl f).Warn env w args).1 out
        (env.stamp ++ env.caller 3 ++ ("WRN" ++ " " ++ createFieldsLine (w₀.load f))
          ++ spacedForms args ++ lineEnd (spacedForms args)) ∧
      Wrote w ((NewLogger w₀ out lvl f).Error env w args).1 out
        (env.stamp ++ env.caller 3 ++ ("ERR" ++ " " ++ createFieldsLine (w₀.load f))
          ++ spacedForms args ++ lineEnd (spacedForms args))) ∧
    (∀ ss : List String, spacedForms (ss.map Value.str) = String.join ss) ∧
    (∀ a b : Value, spacedForms [a, b]
      = a.format ++ (if a.isString || b.isString then "" else " ") ++ b.format) := by
  refine ⟨?_, spacedForms_strings, ?_⟩
  · intro w₀ out lvl f env w args
    rw [← Sprint_eq_spacedForms]
    exact ⟨output_wrote out Level.DebugLevel _ env w args,
      output_wrote out Level.InfoLevel _ env w args,
      output_wrote out Level.WarnLevel _ env w args,
      output_wrote out Level.ErrorLevel _ env w args⟩
  · intro a b
    simp [spacedForms, sepBetween, join_cons, String.join, String.append_assoc]

/-! ## The field line as a text -/

theorem join_append (a b : List String) :
    String.join (a ++ b) = String.join a ++ String.join b := by
  apply String.ext
  simp [String.data_join, String.data_append]

/-- C19: the rendering is not injective: the mappings `{"a": "1 b=2"}` and
`{"a": "1", "b": "2"}` differ (only the second holds the key `b`) and both
render to `a=1 b=2 `. -/
theorem createFieldsLine_not_injective :
    createFieldsLine (Fields.ofList [("a", Value.str "1 b=2")]) = "a=1 b=2 " ∧
    createFieldsLine (Fields.ofList [("a", Value.str "1"), ("b", Value.str "2")])
      = "a=1 b=2 " ∧
    (Fields.ofList [("a", Value.str "1 b=2")]).get "b" = none ∧
    (Fields.ofList [("a", Value.str "1"), ("b", Value.str "2")]).get "b"
      = some (Value.str "2") ∧
    ¬ (∀ m₁ m₂ : Fields, createFieldsLine m₁ = createFieldsLine m₂ →
        ∀ k, m₁.get k = m₂.get k) := by
  refine ⟨by decide, by decide, by decide, by decide, ?_⟩
  intro h
  have hb := h (Fields.ofList [("a", Value.str "1 b=2")])
    (Fields.ofList [("a", Value.str "1"), ("b", Value.str "2")]) (by decide) "b"
  revert hb
  decide

/-- C13: a mapping without entries renders to the empty text; the line of a
mapping with entries is not empty and ends with the pair of the greatest key
followed by exactly one space. -/
theorem createFieldsLine_empty_or_trailing_space (fields : Fields) :
    (fields.entries = [] → createFieldsLine fields = "") ∧
    (fields.entries ≠ [] →
      createFieldsLine fields ≠ "" ∧
      ∃ (front key : String) (value : Value),
        fields.get key = some value ∧
        (∀ k ∈ fields.keys, keyLE k key) ∧
        createFieldsLine fields = front ++ (key ++ "=" ++ value.format) ++ " ") := by
  constructor
  · intro h
    simp [createFieldsLine, Fields.len, h]
  · intro h
    have hk : sortStrings fields.keys ≠ [] := by
      intro hc
      have hp := sortStrings_perm fields.keys
      rw [hc] at hp
      have hnil : fields.keys = [] := List.Perm.eq_nil hp.symm
      exact h (List.map_eq_nil_iff.1 hnil)
    obtain ⟨init, key, hik⟩ : ∃ init key, sortStrings fields.keys = init ++ [key] :=
      ⟨(sortStrings fields.keys).dropLast, (sortStrings fields.keys).getLast hk,
        (List.dropLast_append_getLast hk).symm⟩
    have hmem : key ∈ fields.keys :=
      (sortStrings_perm fields.keys).mem_iff.1 (by rw [hik]; simp)
    obtain ⟨e, he, hek⟩ := List.mem_map.1 hmem
    have hidx : fields.index key = e.2 := by
      rw [← hek]
      exact Fields.index_of_mem fields e he
    have hget : fields.get key = some e.2 := by
      rw [← hek]
      exact lookupEntry_of_mem fields.entries fields.nodup e.1 e.2 he
    have hline : createFieldsLine fields
        = String.join (init.map (fieldPair fields)) ++ (key ++ "=" ++ e.2.format) ++ " " := by
      rw [createFieldsLine_eq, hik, List.map_append, join_append]
      simp [fieldPair, hidx, String.join, String.append_assoc]
    refine ⟨?_, String.join (init.map (fieldPair fields)), key, e.2, hget, ?_, hline⟩
    · rw [hline]
      intro hc
      have hd := congrArg String.data hc
      simp [String.data_append] at hd
    · intro k hkm
      have hks : k ∈ init ++ [key] := by
        rw [← hik]
        exact (sortStrings_perm fields.keys).mem_iff.2 hkm
      have hs : (init ++ [key]).Pairwise keyLE := by
        rw [← hik]
        exact sortStrings_sorted fields.keys
      rcases List.mem_append.1 hks with hin | hlast
      · exact (List.pairwise_append.1 hs).2.2 k hin key (by simp)
      · have : k = key := by simpa using hlast
        subst this
        exact (keyLE_total k k).elim id id

theorem createFieldsLine_empty_or_trailing_space_witness :
    (Fields.ofList [("name", Value.str "john doe"), ("age", Value.int 18)]).entries ≠ [] ∧
    createFieldsLine (Fields.ofList [("name", Value.str "john doe"), ("age", Value.int 18)])
      ≠ "" :=
  ⟨by decide,
   ((createFieldsLine_empty_or_trailing_space
      (Fields.ofList [("name", Value.str "john doe"), ("age", Value.int 18)])).2
      (by decide)).1⟩

/-! ## What `Sub` does to the map it is given -/

theorem Sub_isUnion (l : Logger) (w : World) (i : Nat) :
    IsUnion ((l.Sub w (some i)).1.maps i) (w.load l.fields) (w.maps i) := by
  constructor
  · intro k v hk
    rw [Sub_some_get, hk]
    rfl
  · intro k hk
    rw [Sub_some_get, hk]
    rfl

theorem Sub_other_maps (l : Logger) (w : World) (i j : Nat) (h : j ≠ i) :
    (l.Sub w (some i)).1.maps j = w.maps j := by
  rw [Sub_some]
  simp [World.setMap, Function.update_noteq h]

theorem Sub_sinks (l : Logger) (w : World) (g : MapRef) : (l.Sub w g).1.sinks = w.sinks := by
  cases g with
  | some i => rw [Sub_some]; rfl
  | none =>
    unfold Logger.Sub
    cases h : rangeAssign w none (w.load l.fields).entries with
    | none => rfl
    | some w' =>
      cases he : (w.load l.fields).entries with
      | nil =>
        rw [he] at h
        simp only [rangeAssign, Option.some.injEq] at h
        subst h
        rfl
      | cons e rest =>
        rw [he] at h
        obtain ⟨k, v⟩ := e
        simp [rangeAssign, mapassign] at h

/-- C17: for a logger `l` and a non-nil mapping `f` (the map at address `i`),
`l.Sub(f)` returns; afterwards the caller's map `f` holds every key of `l`
with the value of `l` (also where `f` had another value), holds under every
other key what it held before, and is the map stored as the fields of the new
logger; no other map is changed. -/
theorem Sub_writes_into_argument (l : Logger) (w : World) (i : Nat) :
    ∃ w' l', l.Sub w (some i) = (w', Outcome.returned l') ∧
      l'.fields = some i ∧
      (∀ k v, (w.load l.fields).get k = some v → (w'.maps i).get k = some v) ∧
      (∀ k, (w.load l.fields).get k = none → (w'.maps i).get k = (w.maps i).get k) ∧
      (∀ j, j ≠ i → w'.maps j = w.maps j) := by
  refine ⟨(l.Sub w (some i)).1, NewLogger (l.Sub w (some i)).1 l.out l.level (some i),
    ?_, rfl, (Sub_isUnion l w i).1, (Sub_isUnion l w i).2, ?_⟩
  · rw [Sub_some]
  · intro j hj
    exact Sub_other_maps l w i j hj

/-! ## The invariant of constructed loggers -/

theorem Sub_returned_eq {l : Logger} {w w' : World} {g : MapRef} {l' : Logger}
    (h : l.Sub w g = (w', Outcome.returned l')) : l' = NewLogger w' l.out l.level g := by
  unfold Logger.Sub at h
  cases hr : rangeAssign w g (w.load l.fields).entries with
  | none =>
    rw [hr] at h
    simp at h
  | some w'' =>
    rw [hr] at h
    simp only [Prod.mk.injEq, Outcome.returned.injEq] at h
    rw [← h.1, ← h.2]

/-- C16: a logger just returned by `NewLogger`, or by `Sub` along any chain of
`Sub` calls starting from `NewLogger`, has as cached field line the rendering
of its field mapping in the world it was returned in, and each of its six
line-writers carries the tag of its severity, one space and that field line. -/
theorem Built_cached_line_and_writers (w : World) (l : Logger) (h : Built w l) :
    l.fieldsLine = createFieldsLine (w.load l.fields) ∧
    l.debug.pre = "DBG" ++ " " ++ l.fieldsLine ∧
    l.info.pre = "INF" ++ " " ++ l.fieldsLine ∧
    l.warn.pre = "WRN" ++ " " ++ l.fieldsLine ∧
    l.error.pre = "ERR" ++ " " ++ l.fieldsLine ∧
    l.panic.pre = "PNC" ++ " " ++ l.fieldsLine ∧
    l.fatal.pre = "FTL" ++ " " ++ l.fieldsLine := by
  match h with
  | Built.byNewLogger _ out lvl f => exact ⟨rfl, rfl, rfl, rfl, rfl, rfl, rfl⟩
  | Built.bySub w₀ w₁ _ l₀ _ g _ hs =>
    rw [Sub_returned_eq hs]
    exact ⟨rfl, rfl, rfl, rfl, rfl, rfl, rfl⟩

theorem Built_cached_line_and_writers_witness :
    Built ((NewLogger testWorld 0 Level.InfoLevel (some 0)).Sub testWorld (some 1)).1
      (NewLogger ((NewLogger testWorld 0 Level.InfoLevel (some 0)).Sub testWorld (some 1)).1
        0 Level.InfoLevel (some 1)) ∧
    (NewLogger ((NewLogger testWorld 0 Level.InfoLevel (some 0)).Sub testWorld (some 1)).1
        0 Level.InfoLevel (some 1)).info.pre
      = "INF" ++ " "
        ++ (NewLogger ((NewLogger testWorld 0 Level.InfoLevel (some 0)).Sub testWorld (some 1)).1
            0 Level.InfoLevel (some 1)).fieldsLine :=
  ⟨Built.bySub testWorld testWorld _ _ _ (some 1)
      (Built.byNewLogger testWorld 0 Level.InfoLevel (some 0)) rfl,
   (Built_cached_line_and_writers _ _
      (Built.bySub testWorld testWorld _ _ _ (some 1)
        (Built.byNewLogger testWorld 0 Level.InfoLevel (some 0)) rfl)).2.2.1⟩

/-! ## A failing sink -/

theorem discarded_of_wrote {w w' : World} {out : Nat} {t : String}
    (h : Wrote w w' out t) (hfail : (w.sinks out).failing = true) : Discarded w w' out := by
  obtain ⟨h1, h2, _, h4, h5⟩ := h
  refine ⟨⟨t, h1⟩, ?_, h4, h5⟩
  rw [h2, hfail]
  rfl

/-- C14: when `Write` of the sink returns an error, each of Debug, Debugf,
Info, Infof, Warn, Warnf, Error and Errorf still returns normally, after
exactly one call of `Write` (no second attempt) of which the sink kept
nothing; Panic and Panicf, after that one call, still panic with the rendered
message as payload. -/
theorem write_failure_discarded
    (sprintf : String → List Value → String) (w₀ : World) (out : Nat) (lvl : Level)
    (f : MapRef) (env : Env) (w : World) (msg : String) (args : List Value)
    (hfail : (w.sinks out).failing = true) :
    (Discarded w ((NewLogger w₀ out lvl f).Debug env w args).1 out ∧
      ((NewLogger w₀ out lvl f).Debug env w args).2 = Outcome.returned ()) ∧
    (Discarded w ((NewLogger w₀ out lvl f).Debugf sprintf env w msg args).1 out ∧
      ((NewLogger w₀ out lvl f).Debugf sprintf env w msg args).2 = Outcome.returned ()) ∧
    (Discarded w ((NewLogger w₀ out lvl f).Info env w args).1 out ∧
      ((NewLogger w₀ out lvl f).Info env w args).2 = Outcome.returned ()) ∧
    (Discarded w ((NewLogger w₀ out lvl f).Infof sprintf env w msg args).1 out ∧
      ((NewLogger w₀ out lvl f).Infof sprintf env w msg args).2 = Outcome.returned ()) ∧
    (Discarded w ((NewLogger w₀ out lvl f).Warn env w args).1 out ∧
      ((NewLogger w₀ out lvl f).Warn env w args).2 = Outcome.returned ()) ∧
    (Discarded w ((NewLogger w₀ out lvl f).Warnf sprintf env w msg args).1 out ∧
      ((NewLogger w₀ out lvl f).Warnf sprintf env w msg args).2 = Outcome.returned ()) ∧
    (Discarded w ((NewLogger w₀ out lvl f).Error env w args).1 out ∧
      ((NewLogger w₀ out lvl f).Error env w args).2 = Outcome.returned ()) ∧
    (Discarded w ((NewLogger w₀ out lvl f).Errorf sprintf env w msg args).1 out ∧
      ((NewLogger w₀ out lvl f).Errorf sprintf env w msg args).2 = Outcome.returned ()) ∧
    (Discarded w ((NewLogger w₀ out lvl f).Panic env w args).1 out ∧
      ((NewLogger w₀ out lvl f).Panic env w args).2
        = Outcome.panicked (Value.str (Sprint args))) ∧
    (Discarded w ((NewLogger w₀ out lvl f).Panicf sprintf env w msg args).1 out ∧
      ((NewLogger w₀ out lvl f).Panicf sprintf env w msg args).2
        = Outcome.panicked (Value.str (sprintf msg args))) :=
  ⟨⟨discarded_of_wrote (output_wrote out Level.DebugLevel _ env w args) hfail, rfl⟩,
   ⟨discarded_of_wrote (outputf_wrote sprintf out Level.DebugLevel _ env w msg args) hfail,
     rfl⟩,
   ⟨discarded_of_wrote (output_wrote out Level.InfoLevel _ env w args) hfail, rfl⟩,
   ⟨discarded_of_wrote (outputf_wrote sprintf out Level.InfoLevel _ env w msg args) hfail,
     rfl⟩,
   ⟨discarded_of_wrote (output_wrote out Level.WarnLevel _ env w args) hfail, rfl⟩,
   ⟨discarded_of_wrote (outputf_wrote sprintf out Level.WarnLevel _ env w msg args) hfail,
     rfl⟩,
   ⟨discarded_of_wrote (output_wrote out Level.ErrorLevel _ env w args) hfail, rfl⟩,
   ⟨discarded_of_wrote (outputf_wrote sprintf out Level.ErrorLevel _ env w msg args) hfail,
     rfl⟩,
   ⟨discarded_of_wrote (output_wrote out Level.PanicLevel _ env w args) hfail, rfl⟩,
   ⟨discarded_of_wrote (outputf_wrote sprintf out Level.PanicLevel _ env w msg args) hfail,
     rfl⟩⟩

theorem write_failure_discarded_witness :
    (brokenSinkWorld.sinks 0).failing = true ∧
    ((NewLogger brokenSinkWorld 0 Level.InfoLevel (some 0)).Info testEnv brokenSinkWorld
        [Value.str "hello world"]).2 = Outcome.returned () ∧
    Discarded brokenSinkWorld
      ((NewLogger brokenSinkWorld 0 Level.InfoLevel (some 0)).Info testEnv brokenSinkWorld
        [Value.str "hello world"]).1 0 :=
  ⟨rfl,
   (write_failure_discarded (fun s _ => s) brokenSinkWorld 0 Level.InfoLevel (some 0)
      testEnv brokenSinkWorld "" [Value.str "hello world"] rfl).2.2.1.2,
   (write_failure_discarded (fun s _ => s) brokenSinkWorld 0 Level.InfoLevel (some 0)
      testEnv brokenSinkWorld "" [Value.str "hello world"] rfl).2.2.1.1⟩

/-! ## Forking against direct construction -/

theorem IsUnion.get_eq {m m' a b : Fields} (h : IsUnion m a b) (h' : IsUnion m' a b)
    (k : String) : m.get k = m'.get k := by
  cases ha : a.get k with
  | none => rw [h.2 k ha, h'.2 k ha]
  | some v => rw [h.1 k v ha, h'.1 k v ha]

theorem isUnion_of_keys (m a b : Fields)
    (h : ∀ k ∈ a.keys ++ b.keys ++ m.keys,
      m.get k = (a.get k).orElse (fun _ => b.get k)) : IsUnion m a b := by
  have hall : ∀ k, m.get k = (a.get k).orElse (fun _ => b.get k) := by
    intro k
    by_cases hk : k ∈ a.keys ++ b.keys ++ m.keys
    · exact h k hk
    · simp only [List.mem_append, not_or] at hk
      have ha : a.get k = none := by
        by_contra hc
        exact hk.1.1 ((Fields.mem_keys_iff a k).2 hc)
      have hb : b.get k = none := by
        by_contra hc
        exact hk.1.2 ((Fields.mem_keys_iff b k).2 hc)
      have hm : m.get k = none := by
        by_contra hc
        exact hk.2 ((Fields.mem_keys_iff m k).2 hc)
      rw [ha, hb, hm]
      rfl
  constructor
  · intro k v hk
    rw [hall k, hk]
    rfl
  · intro k hk
    rw [hall k, hk]
    rfl

theorem Sub_none_fst (l : Logger) (w : World) : (l.Sub w none).1 = w := by
  unfold Logger.Sub
  cases he : (w.load l.fields).entries with
  | nil => rfl
  | cons e rest =>
    obtain ⟨k, v⟩ := e
    rfl

theorem Sub_load_receiver (l : Logger) (w : World) (g : MapRef) (k : String) :
    ((l.Sub w g).1.load l.fields).get k = (w.load l.fields).get k := by
  cases g with
  | none => rw [Sub_none_fst]
  | some i =>
    cases hf : l.fields with
    | none => rfl
    | some j =>
      by_cases hj : j = i
      · subst hj
        have h := Sub_some_get l w j k
        rw [hf] at h
        show ((l.Sub w (some j)).1.maps j).get k = (w.maps j).get k
        rw [h]
        show ((w.maps j).get k).orElse (fun _ => (w.maps j).get k) = (w.maps j).get k
        cases (w.maps j).get k <;> rfl
      · show ((l.Sub w (some i)).1.maps j).get k = (w.maps j).get k
        rw [Sub_other_maps l w i j hj]

/-- C15: a call `l.Sub(f)`, whether it returns or panics, writes to no sink
and leaves the field mapping of `l`, hence its rendering, as it was; the
record `l`, which `Sub` only reads, keeps its severity, cached field line,
sink and line-writers. When `f` is not the nil map the call returns a logger
that has the sink of `l`, as has each of its six line-writers. -/
theorem Sub_leaves_receiver (l : Logger) (w : World) :
    (∀ g : MapRef,
      (l.Sub w g).1.sinks = w.sinks ∧
      (∀ k, ((l.Sub w g).1.load l.fields).get k = (w.load l.fields).get k) ∧
      createFieldsLine ((l.Sub w g).1.load l.fields) = createFieldsLine (w.load l.fields)) ∧
    (∀ i : Nat, ∃ w' l', l.Sub w (some i) = (w', Outcome.returned l') ∧
      l'.out = l.out ∧ l'.debug.out = l.out ∧ l'.info.out = l.out ∧ l'.warn.out = l.out ∧
      l'.error.out = l.out ∧ l'.panic.out = l.out ∧ l'.fatal.out = l.out) := by
  constructor
  · intro g
    exact ⟨Sub_sinks l w g, Sub_load_receiver l w g,
      createFieldsLine_congr _ _ (Sub_load_receiver l w g)⟩
  · intro i
    refine ⟨(l.Sub w (some i)).1, NewLogger (l.Sub w (some i)).1 l.out l.level (some i),
      ?_, rfl, rfl, rfl, rfl, rfl, rfl, rfl⟩
    rw [Sub_some]

/-- C11: the logger `NewLogger(out, lvl, a).Sub(b)`, for a non-nil `b` (the
map at address `i`), and a logger `NewLogger(out, lvl, m)` for any mapping `m`
that is the union of `a` and `b` with the value of `a` on shared keys have
the same cached field line, severity, sink and six line-writers, and each of
the twelve emission methods does the same on both in every world: the same
text is written and the call ends the same way. -/
theorem Sub_same_as_NewLogger_on_union
    (sprintf : String → List Value → String) (w : World) (out : Nat) (lvl : Level)
    (a : MapRef) (i : Nat) (w₂ : World) (r : MapRef)
    (h : IsUnion (w₂.load r) (w.load a) (w.maps i)) :
    ∃ w₁ l', (NewLogger w out lvl a).Sub w (some i) = (w₁, Outcome.returned l') ∧
      l'.fieldsLine = (NewLogger w₂ out lvl r).fieldsLine ∧
      l'.level = (NewLogger w₂ out lvl r).level ∧
      l'.out = (NewLogger w₂ out lvl r).out ∧
      l'.debug = (NewLogger w₂ out lvl r).debug ∧
      l'.info = (NewLogger w₂ out lvl r).info ∧
      l'.warn = (NewLogger w₂ out lvl r).warn ∧
      l'.error = (NewLogger w₂ out lvl r).error ∧
      l'.panic = (NewLogger w₂ out lvl r).panic ∧
      l'.fatal = (NewLogger w₂ out lvl r).fatal ∧
      (∀ (env : Env) (v : World) (msg : String) (args : List Value),
        l'.Debug env v args = (NewLogger w₂ out lvl r).Debug env v args ∧
        l'.Debugf sprintf env v msg args
          = (NewLogger w₂ out lvl r).Debugf sprintf env v msg args ∧
        l'.Info env v args = (NewLogger w₂ out lvl r).Info env v args ∧
        l'.Infof sprintf env v msg args
          = (NewLogger w₂ out lvl r).Infof sprintf env v msg args ∧
        l'.Warn env v args = (NewLogger w₂ out lvl r).Warn env v args ∧
        l'.Warnf sprintf env v msg args
          = (NewLogger w₂ out lvl r).Warnf sprintf env v msg args ∧
        l'.Error env v args = (NewLogger w₂ out lvl r).Error env v args ∧
        l'.Errorf sprintf env v msg args
          = (NewLogger w₂ out lvl r).Errorf sprintf env v msg args ∧
        l'.Panic env v args = (NewLogger w₂ out lvl r).Panic env v args ∧
        l'.Panicf sprintf env v msg args
          = (NewLogger w₂ out lvl r).Panicf sprintf env v msg args ∧
        l'.Fatal env v args = (NewLogger w₂ out lvl r).Fatal env v args ∧
        l'.Fatalf sprintf env v msg args
          = (NewLogger w₂ out lvl r).Fatalf sprintf env v msg args) := by
  have hu : IsUnion (((NewLogger w out lvl a).Sub w (some i)).1.maps i) (w.load a)
      (w.maps i) := Sub_isUnion (NewLogger w out lvl a) w i
  have hline : createFieldsLine
        ((((NewLogger w out lvl a).Sub w (some i)).1).load (some i))
      = createFieldsLine (w₂.load r) :=
    createFieldsLine_congr _ _ (IsUnion.get_eq hu h)
  refine ⟨((NewLogger w out lvl a).Sub w (some i)).1,
    NewLogger ((NewLogger w out lvl a).Sub w (some i)).1 out lvl (some i), ?_, ?_⟩
  · rw [Sub_some]
    rfl
  · generalize ((NewLogger w out lvl a).Sub w (some i)).1 = w₁ at hline
    simp only [NewLogger, Logger.Debug, Logger.Debugf, Logger.Info, Logger.Infof,
      Logger.Warn, Logger.Warnf, Logger.Error, Logger.Errorf, Logger.Panic, Logger.Panicf,
      Logger.Fatal, Logger.Fatalf, hline]
    simp

theorem Sub_same_as_NewLogger_on_union_witness :
    (forkWorld.load (some 0)).get "age" = some (Value.int 18) ∧
    (forkWorld.maps 1).get "age" = some (Value.int 99) ∧
    (forkWorld.load (some 0)).get "zone" = none ∧
    (forkWorld.maps 1).get "zone" = some (Value.str "eu") ∧
    IsUnion (forkWorld.load (some 4)) (forkWorld.load (some 0)) (forkWorld.maps 1) ∧
    (∃ w₁ l', (NewLogger forkWorld 0 Level.InfoLevel (some 0)).Sub forkWorld (some 1)
        = (w₁, Outcome.returned l') ∧
      l'.fieldsLine = (NewLogger forkWorld 0 Level.InfoLevel (some 4)).fieldsLine ∧
      l'.info = (NewLogger forkWorld 0 Level.InfoLevel (some 4)).info) ∧
    (NewLogger forkWorld 0 Level.InfoLevel (some 4)).fieldsLine
      = "age=18 name=john doe zone=eu " :=
  have hu : IsUnion (forkWorld.load (some 4)) (forkWorld.load (some 0)) (forkWorld.maps 1) :=
    isUnion_of_keys _ _ _ (by decide)
  ⟨by decide, by decide, by decide, by decide, hu,
   match Sub_same_as_NewLogger_on_union (fun s _ => s) forkWorld 0 Level.InfoLevel (some 0) 1
      forkWorld (some 4) hu with
   | ⟨w₁, l', hs, hl, _, _, _, hi, _⟩ => ⟨w₁, l', hs, hl, hi⟩,
   by decide⟩

/-- C12 (the code at the failing input): on a logger that holds the fields of
the tests, `Sub(nil)` panics with "assignment to entry in nil map" and
returns no logger; `NewLogger` on the nil map, and `Sub(nil)` on a logger
without fields, do return. -/
theorem Sub_nil_map_panics :
    (NewLogger testWorld 0 Level.InfoLevel (some 0)).Sub testWorld none
      = (testWorld, Outcome.panicked nilMapPanic) ∧
    ((NewLogger testWorld 0 Level.InfoLevel (some 0)).Sub testWorld none).2.value?.isNone
      = true ∧
    (NewLogger testWorld 0 Level.InfoLevel none).fieldsLine = "" ∧
    ((NewLogger testWorld 0 Level.InfoLevel none).Sub testWorld none).2.value?.isSome
      = true := by
  refine ⟨rfl, rfl, rfl, rfl⟩

/-! ## Chains of `Sub` -/

theorem Built.cached {w : World} {l : Logger} (h : Built w l) :
    l.fieldsLine = createFieldsLine (w.load l.fields) := by
  match h with
  | Built.byNewLogger _ out lvl f => rfl
  | Built.bySub w₀ w₁ _ l₀ _ g _ hs =>
    rw [Sub_returned_eq hs]
    rfl

theorem Sub_Sub_get (l : Logger) (w : World) (i j : Nat) (x : String) :
    (((NewLogger (l.Sub w (some i)).1 l.out l.level (some i)).Sub
        (l.Sub w (some i)).1 (some j)).1.maps j).get x
      = (((w.load l.fields).get x).orElse (fun _ => (w.maps i).get x)).orElse
          (fun _ => (w.maps j).get x) := by
  rw [Sub_some_get]
  have h1 : ((l.Sub w (some i)).1.load
      (NewLogger (l.Sub w (some i)).1 l.out l.level (some i)).fields).get x
      = ((w.load l.fields).get x).orElse (fun _ => (w.maps i).get x) :=
    Sub_some_get l w i x
  rw [h1]
  by_cases hji : j = i
  · subst hji
    rw [Sub_some_get]
    cases (w.load l.fields).get x <;> cases (w.maps j).get x <;> rfl
  · rw [Sub_other_maps l w i j hji]

/-- C18 (as stated, refuted): `l` is built from the map of the tests, the
caller then stores `zone` in that map, and `l.Sub` of an empty mapping returns
a logger whose rendered line has `zone=eu`, which the rendered line of `l`
has not. -/
theorem Sub_empty_renders_anew :
    ∃ w w₁ l₁,
      mapassign testWorld (some 0) "zone" (Value.str "eu") = some w ∧
      (w.maps 1).entries = [] ∧
      (NewLogger testWorld 0 Level.InfoLevel (some 0)).Sub w (some 1)
        = (w₁, Outcome.returned l₁) ∧
      l₁.fieldsLine = "age=18 name=john doe zone=eu " ∧
      (NewLogger testWorld 0 Level.InfoLevel (some 0)).fieldsLine
        = "age=18 name=john doe " := by
  refine ⟨testWorld.setMap 0 ((testWorld.maps 0).set "zone" (Value.str "eu")),
    ((NewLogger testWorld 0 Level.InfoLevel (some 0)).Sub
      (testWorld.setMap 0 ((testWorld.maps 0).set "zone" (Value.str "eu"))) (some 1)).1,
    NewLogger ((NewLogger testWorld 0 Level.InfoLevel (some 0)).Sub
      (testWorld.setMap 0 ((testWorld.maps 0).set "zone" (Value.str "eu"))) (some 1)).1
      0 Level.InfoLevel (some 1),
    rfl, ?_, ?_, ?_, ?_⟩
  · decide
  · rw [Sub_some]
    rfl
  · decide
  · decide

/-- C18 (amended): for non-nil mappings `f`, `g` (the maps at `i`, `j`) and a
mapping `h` that is the union of `f` and `g` with the value of `f` on shared
keys, `l.Sub(f).Sub(g)` and `l.Sub(h)` have the same field mapping and the
same rendered line; `l.Sub(f).Sub(f)` has the fields and line of `l.Sub(f)`;
`l.Sub` of an empty mapping has the fields of `l` and the rendering of those
fields, which is the rendered line of `l` when `l` has just been built in the
world of the call. -/
theorem Sub_chain_earliest_wins (l : Logger) (w : World) (i j k : Nat) (wh : World)
    (hl : ∀ x, (wh.load l.fields).get x = (w.load l.fields).get x)
    (hu : IsUnion (wh.maps k) (w.maps i) (w.maps j)) :
    ∃ w₁ l₁ w₂ l₂ w₃ l₃,
      l.Sub w (some i) = (w₁, Outcome.returned l₁) ∧
      l₁.Sub w₁ (some j) = (w₂, Outcome.returned l₂) ∧
      l.Sub wh (some k) = (w₃, Outcome.returned l₃) ∧
      (∀ x, (w₂.load l₂.fields).get x = (w₃.load l₃.fields).get x) ∧
      l₂.fieldsLine = l₃.fieldsLine ∧
      (∃ w₂' l₂', l₁.Sub w₁ (some i) = (w₂', Outcome.returned l₂') ∧
        (∀ x, (w₂'.load l₂'.fields).get x = (w₁.load l₁.fields).get x) ∧
        l₂'.fieldsLine = l₁.fieldsLine) ∧
      ((w.maps i).entries = [] →
        (∀ x, (w₁.load l₁.fields).get x = (w.load l.fields).get x) ∧
        l₁.fieldsLine = createFieldsLine (w.load l.fields) ∧
        (Built w l → l₁.fieldsLine = l.fieldsLine)) := by
  have hget : ∀ x,
      (((NewLogger (l.Sub w (some i)).1 l.out l.level (some i)).Sub
          (l.Sub w (some i)).1 (some j)).1.maps j).get x
        = ((l.Sub wh (some k)).1.maps k).get x := by
    intro x
    rw [Sub_Sub_get, Sub_some_get, hl x]
    cases hA : (w.load l.fields).get x with
    | some a => rfl
    | none =>
      cases hB : (w.maps i).get x with
      | some b =>
        rw [hu.1 x b hB]
        rfl
      | none =>
        rw [hu.2 x hB]
        rfl
  have htwice : ∀ x,
      (((NewLogger (l.Sub w (some i)).1 l.out l.level (some i)).Sub
          (l.Sub w (some i)).1 (some i)).1.maps i).get x
        = ((l.Sub w (some i)).1.maps i).get x := by
    intro x
    rw [Sub_Sub_get, Sub_some_get]
    cases (w.load l.fields).get x <;> cases (w.maps i).get x <;> rfl
  refine ⟨(l.Sub w (some i)).1, NewLogger (l.Sub w (some i)).1 l.out l.level (some i),
    ((NewLogger (l.Sub w (some i)).1 l.out l.level (some i)).Sub
      (l.Sub w (some i)).1 (some j)).1,
    NewLogger ((NewLogger (l.Sub w (some i)).1 l.out l.level (some i)).Sub
      (l.Sub w (some i)).1 (some j)).1 l.out l.level (some j),
    (l.Sub wh (some k)).1, NewLogger (l.Sub wh (some k)).1 l.out l.level (some k),
    ?_, ?_, ?_, hget, createFieldsLine_congr _ _ hget, ?_, ?_⟩
  · rw [Sub_some]
  · rw [Sub_some]
    rfl
  · rw [Sub_some]
  · refine ⟨((NewLogger (l.Sub w (some i)).1 l.out l.level (some i)).Sub
        (l.Sub w (some i)).1 (some i)).1,
      NewLogger ((NewLogger (l.Sub w (some i)).1 l.out l.level (some i)).Sub
        (l.Sub w (some i)).1 (some i)).1 l.out l.level (some i),
      ?_, htwice, createFieldsLine_congr _ _ htwice⟩
    rw [Sub_some]
    rfl
  · intro hempty
    have hsame : ∀ x, ((l.Sub w (some i)).1.maps i).get x = (w.load l.fields).get x := by
      intro x
      rw [Sub_some_get]
      have hn : (w.maps i).get x = none := by
        unfold Fields.get
        rw [hempty]
        rfl
      rw [hn]
      cases (w.load l.fields).get x <;> rfl
    refine ⟨hsame, createFieldsLine_congr _ _ hsame, ?_⟩
    intro hb
    rw [Built.cached hb]
    exact createFieldsLine_congr _ _ hsame

theorem Sub_chain_earliest_wins_witness :
    (forkWorld.maps 1).get "zone" = some (Value.str "eu") ∧
    (forkWorld.maps 2).get "zone" = some (Value.str "us") ∧
    (forkWorld.load (NewLogger forkWorld 0 Level.InfoLevel (some 0)).fields).get "age"
      = some (Value.int 18) ∧
    (forkWorld.maps 1).get "age" = some (Value.int 99) ∧
    IsUnion (forkWorld.maps 3) (forkWorld.maps 1) (forkWorld.maps 2) ∧
    (∃ w₁ l₁ w₂ l₂ w₃ l₃,
      (NewLogger forkWorld 0 Level.InfoLevel (some 0)).Sub forkWorld (some 1)
        = (w₁, Outcome.returned l₁) ∧
      l₁.Sub w₁ (some 2) = (w₂, Outcome.returned l₂) ∧
      (NewLogger forkWorld 0 Level.InfoLevel (some 0)).Sub forkWorld (some 3)
        = (w₃, Outcome.returned l₃) ∧
      (∀ x, (w₂.load l₂.fields).get x = (w₃.load l₃.fields).get x) ∧
      l₂.fieldsLine = l₃.fieldsLine) ∧
    ((NewLogger forkWorld 0 Level.InfoLevel (some 0)).Sub forkWorld (some 3)).2.value?.map
        Logger.fieldsLine
      = some "age=18 id=7 name=john doe zone=eu " :=
  have hu : IsUnion (forkWorld.maps 3) (forkWorld.maps 1) (forkWorld.maps 2) :=
    isUnion_of_keys _ _ _ (by decide)
  ⟨by decide, by decide, by decide, by decide, hu,
   match Sub_chain_earliest_wins (NewLogger forkWorld 0 Level.InfoLevel (some 0)) forkWorld
      1 2 3 forkWorld (fun _ => rfl) hu with
   | ⟨w₁, l₁, w₂, l₂, w₃, l₃, h1, h2, h3, h4, h5, _⟩ =>
     ⟨w₁, l₁, w₂, l₂, w₃, l₃, h1, h2, h3, h4, h5⟩,
   by decide⟩

end PatronStd
